import Mathlib

/-!
Mapty: workout model, persistence and controller.

A shallow embedding of `script.js`.

Conventions of the embedding:

* A JavaScript Number is a `JSNum`: a finite value is a rational, next to `NaN` and
  the two infinities.  The operator `/` rounds its exact quotient by a rounding that
  the functions take as a parameter: `JSNum.binary64` is the rounding of the language
  (IEEE 754 double precision, to nearest, ties to even, with underflow to zero and
  overflow to infinity), `JSNum.exact` keeps the exact quotient and serves the
  statements that are about exact arithmetic.  The sign of zero is not modelled.
* A JavaScript value is a `JSVal`; an object is the list of its own properties in
  creation order.
* A thrown `TypeError` is an explicit result of the function that raises it.
* Texts produced by template literals (the list row, the popup) are kept as the
  record of the interpolated values; `localStorage` keeps the JSON document instead
  of its text, and refuses a write when its quota does not admit the document.
* The map widget, the clock and the DOM are external: the clock readings and the
  form fields arrive with the event, the map is the log of the view requests.
-/

namespace Mapty

/-! ## JavaScript values -/

/-- A JavaScript Number; a finite value is the rational it denotes. -/
inductive JSNum where
  | fin (q : ℚ)
  | nan
  | posInf
  | negInf
  deriving DecidableEq

namespace JSNum

/-- The built-in `Number.isFinite`. -/
def isFinite : JSNum → Bool
  | fin _ => true
  | _ => false

/-- The comparison `inp > 0`. -/
def gtZero : JSNum → Bool
  | fin q => decide (0 < q)
  | posInf => true
  | _ => false

/-- A rounding: the Number that stands for an exact finite result. -/
abbrev Rounding := ℚ → JSNum

/-- No rounding: arithmetic taken as exact. -/
def exact : Rounding :=
  fin

/-- The integer nearest to `x`, the even one of the two when `x` lies half way. -/
def roundHalfEven (x : ℚ) : ℤ :=
  if x - ⌊x⌋ < 1 / 2 then ⌊x⌋
  else if 1 / 2 < x - ⌊x⌋ then ⌊x⌋ + 1
  else if ⌊x⌋ % 2 = 0 then ⌊x⌋ else ⌊x⌋ + 1

/-- The distance between neighbouring doubles at `q`: `2 ^ (e - 52)` for
`2 ^ e ≤ |q| < 2 ^ (e + 1)`, with `e` no less than `-1022` (subnormal range). -/
def ulp (q : ℚ) : ℚ :=
  2 ^ (max (Int.log 2 |q|) (-1022) - 52)

/-- The magnitude of the double nearest to `q`, ties to even, before the overflow test. -/
def nearest (q : ℚ) : ℚ :=
  (roundHalfEven (|q| / ulp q) : ℚ) * ulp q

/-- The rounding of IEEE 754 double precision: to nearest, ties to even; a magnitude
that rounds to `2 ^ 1024` or more overflows to an infinity, one that rounds to zero
underflows. -/
def binary64 : Rounding := fun q =>
  if q = 0 then fin 0
  else if (2 : ℚ) ^ (1024 : ℤ) ≤ nearest q then (if 0 < q then posInf else negInf)
  else fin (if 0 < q then nearest q else -nearest q)

/-- The operator `/` on Numbers, the exact quotient rounded by `rnd`. -/
def div (rnd : Rounding) : JSNum → JSNum → JSNum
  | nan, _ => nan
  | _, nan => nan
  | fin a, fin b =>
    if b = 0 then (if a = 0 then nan else if 0 < a then posInf else negInf)
    else rnd (a / b)
  | fin _, _ => fin 0
  | posInf, fin b => if b < 0 then negInf else posInf
  | negInf, fin b => if b < 0 then posInf else negInf
  | _, _ => nan

end JSNum

/-- A `Date` object, given by the results of the methods the program calls on it:
`getMonth()`, `getDate()` (local time) and `toJSON()`. -/
structure JSDate where
  month : Nat
  day : Nat
  iso : String
  deriving DecidableEq

/-- The exceptions that can end a function of the program: a `TypeError` of the
language, and the `QuotaExceededError` of a refused `localStorage.setItem`. -/
inductive JSError where
  | typeError
  | quotaExceeded
  deriving DecidableEq

/-- JavaScript values; `obj` lists the own properties in creation order. -/
inductive JSVal where
  | undefined
  | null
  | bool (b : Bool)
  | num (n : JSNum)
  | str (s : String)
  | date (d : JSDate)
  | arr (xs : List JSVal)
  | obj (props : List (String × JSVal))

/-- A JSON document: the content of a JSON text. -/
inductive JSON where
  | null
  | bool (b : Bool)
  | num (q : ℚ)
  | str (s : String)
  | arr (xs : List JSON)
  | obj (props : List (String × JSON))

namespace JSVal

/-- Lookup of an own property in a property list. -/
def lookup (k : String) : List (String × JSVal) → JSVal
  | [] => undefined
  | (k', v) :: ps => if k' = k then v else lookup k ps

/-- Property read `v.k` for the property names of this program, on a value that is
neither `undefined` nor `null` (reading those throws, see `isNullish`). -/
def get : JSVal → String → JSVal
  | obj ps, k => lookup k ps
  | _, _ => undefined

/-- Values on which a property read throws a `TypeError`. -/
def isNullish : JSVal → Bool
  | undefined => true
  | null => true
  | _ => false

/-- The conversion `ToBoolean`, as used by `!data`. -/
def truthy : JSVal → Bool
  | undefined => false
  | null => false
  | bool b => b
  | num (.fin q) => decide (q ≠ 0)
  | num .nan => false
  | num _ => true
  | str s => decide (s ≠ "")
  | _ => true

/-- Assignment `o.k = v` on a property list: an existing key keeps its place. -/
def setProp (k : String) (v : JSVal) : List (String × JSVal) → List (String × JSVal)
  | [] => [(k, v)]
  | (k', v') :: ps => if k' = k then (k', v) :: ps else (k', v') :: setProp k v ps

end JSVal

/-! ## JSON -/

mutual
/-- The built-in `JSON.stringify`, up to the text of the document; `none` is the
result `undefined`. -/
def JSON.stringify : JSVal → Option JSON
  | .undefined => none
  | .null => some .null
  | .bool b => some (.bool b)
  | .num (.fin q) => some (.num q)
  | .num _ => some .null
  | .str s => some (.str s)
  | .date d => some (.str d.iso)
  | .arr xs => some (.arr (JSON.stringifyElems xs))
  | .obj ps => some (.obj (JSON.stringifyProps ps))
/-- Array elements: `undefined` is written as `null`. -/
def JSON.stringifyElems : List JSVal → List JSON
  | [] => []
  | x :: xs => (JSON.stringify x).getD .null :: JSON.stringifyElems xs
/-- Object properties: a property whose value is `undefined` is left out. -/
def JSON.stringifyProps : List (String × JSVal) → List (String × JSON)
  | [] => []
  | (k, v) :: ps =>
    match JSON.stringify v with
    | none => JSON.stringifyProps ps
    | some j => (k, j) :: JSON.stringifyProps ps
end

mutual
/-- The built-in `JSON.parse`, from the document of the text; a number of the document
is taken as the Number it denotes (the documents `JSON.stringify` writes hold doubles
only). -/
def JSON.parse : JSON → JSVal
  | .null => .null
  | .bool b => .bool b
  | .num q => .num (.fin q)
  | .str s => .str s
  | .arr xs => .arr (JSON.parseElems xs)
  | .obj ps => .obj ((JSON.parseProps ps).foldl (fun acc p => JSVal.setProp p.1 p.2 acc) [])
/-- Array elements, in order. -/
def JSON.parseElems : List JSON → List JSVal
  | [] => []
  | x :: xs => JSON.parse x :: JSON.parseElems xs
/-- Object members, in order of the text (a repeated key is resolved in `JSON.parse`). -/
def JSON.parseProps : List (String × JSON) → List (String × JSVal)
  | [] => []
  | (k, j) :: ps => (k, JSON.parse j) :: JSON.parseProps ps
end

/-- Lookup of a member in the member list of a JSON object. -/
def JSON.lookup (k : String) : List (String × JSON) → Option JSON
  | [] => none
  | (k', j) :: ps => if k' = k then some j else JSON.lookup k ps

/-- The member `k` of a JSON document, if it is an object that has one. -/
def JSON.member : JSON → String → Option JSON
  | .obj ps, k => JSON.lookup k ps
  | _, _ => none

/-! ## Workout model (`class Workout`, `Running`, `Cycling`) -/

/-- The table `months`. -/
def months : List String :=
  ["January", "February", "March", "April", "May", "June", "July", "August",
   "September", "October", "November", "December"]

/-- Whether `s` begins with `pat`. -/
def startsWith : List Char → List Char → Bool
  | _, [] => true
  | [], _ :: _ => false
  | c :: cs, p :: ps => decide (c = p) && startsWith cs ps

/-- The built-in `String.prototype.replace` with a string pattern: only the first
occurrence is replaced (the replacement holds no `$`). -/
def replaceFirst (pat rep : List Char) : List Char → List Char
  | [] => if pat.isEmpty then rep else []
  | c :: cs =>
    if startsWith (c :: cs) pat then rep ++ (c :: cs).drop pat.length
    else c :: replaceFirst pat rep cs

/-- The call `s.slice(-n)`: the last `n` characters, or all of `s` when it is shorter. -/
def sliceLast (n : Nat) (s : List Char) : List Char :=
  s.drop (s.length - n)

/-- The field initialiser `id = (Date.now() + '').slice(-10)`. -/
def Workout.id (now : Nat) : String :=
  String.mk (sliceLast 10 (toString now).data)

/-- The fields of `class Workout` after its constructor: `date`, `id`, then
`coords`, `distance`, `duration`. -/
def Workout.new (date : JSDate) (now : Nat) (coords : JSVal) (distance duration : JSNum) :
    List (String × JSVal) :=
  [("date", .date date), ("id", .str (Workout.id now)), ("coords", coords),
   ("distance", .num distance), ("duration", .num duration)]

/-- Method `setDescription`, as the value assigned to `this.description`, from
`this.name` and `this.date`.  `name[0]` of an empty name is `undefined`, whose
`toUpperCase` throws. -/
def Workout.setDescription (name : String) (date : JSDate) : Except JSError String :=
  match name.data with
  | [] => .error .typeError
  | c :: _ =>
    .ok (String.mk (replaceFirst [c] [c.toUpper] name.data) ++ " on "
      ++ (months[date.month]?).getD "undefined" ++ " " ++ toString date.day)

/-- The constructor `new Running(coords, distance, duration, cadence)`, at the clock
readings `date` (`new Date()`) and `now` (`Date.now()`). -/
def Running.new (rnd : JSNum.Rounding) (coords : JSVal) (distance duration cadence : JSNum)
    (date : JSDate) (now : Nat) : Except JSError JSVal :=
  let this := Workout.new date now coords distance duration
    ++ [("name", .str "running"), ("cadence", .num cadence),
        ("pace", .num (JSNum.div rnd duration distance))]
  match Workout.setDescription "running" date with
  | .error err => .error err
  | .ok description => .ok (.obj (this ++ [("description", .str description)]))

/-- The constructor `new Cycling(coords, distance, duration, elevationGain)`. -/
def Cycling.new (rnd : JSNum.Rounding) (coords : JSVal)
    (distance duration elevationGain : JSNum)
    (date : JSDate) (now : Nat) : Except JSError JSVal :=
  let this := Workout.new date now coords distance duration
    ++ [("name", .str "cycling"), ("elevationGain", .num elevationGain),
        ("speed", .num (JSNum.div rnd distance (JSNum.div rnd duration (.fin 60))))]
  match Workout.setDescription "cycling" date with
  | .error err => .error err
  | .ok description => .ok (.obj (this ++ [("description", .str description)]))

/-! ## Controller (`class App`) -/

/-- A position on the map, as Leaflet hands it out: finite latitude and longitude. -/
structure LatLng where
  lat : ℚ
  lng : ℚ
  deriving DecidableEq

/-- The variant part of a list row. -/
inductive RowMetrics where
  | running (pace : JSNum) (cadence : JSVal)
  | cycling (speed : JSNum) (elevationGain : JSVal)
  | none

/-- A list row `<li class="workout ...">`, by the values interpolated into its markup. -/
structure Row where
  name : JSVal
  id : JSVal
  description : JSVal
  distance : JSVal
  duration : JSVal
  metrics : RowMetrics

/-- A popup bound to a marker, by the values interpolated into it. -/
structure Popup where
  marker : LatLng
  name : JSVal
  description : JSVal

/-- The Leaflet map, as the log of its `flyTo(coords, zoom)` requests. -/
structure LMap where
  flights : List (JSVal × Nat)

/-- The application state: the private fields of `App` (`workouts`, `map`,
`curMarker`) and the parts of the page it acts on: the rows that follow the form
element (first to last), the value stored under the key `workouts`, the documents
the store has room for, the alerts shown, the popups bound, and whether the form is
hidden. -/
structure App where
  workouts : List JSVal
  map : Option LMap
  curMarker : Option LatLng
  rows : List Row
  storage : Option JSON
  quota : JSON → Bool
  alerts : List String
  popups : List Popup
  formHidden : Bool

/-- The result of an event handler: the state it leaves and the exception, if any,
that ended it. -/
structure Outcome where
  app : App
  error : Option JSError

/-- The fields read by `#newWorkout` and the clock readings of the constructor. -/
structure FormInput where
  type : String
  distance : JSNum
  duration : JSNum
  cadence : JSNum
  elevation : JSNum
  date : JSDate
  now : Nat

namespace App

/-- The state of `new App()` before its constructor body: no workouts, no map, no
marker, over a page without rows and a store that holds a given value and has room
for any document. -/
def fresh (storage : Option JSON) : App :=
  { workouts := [], map := none, curMarker := none, rows := [], storage := storage,
    quota := fun _ => true, alerts := [], popups := [], formHidden := true }

/-- Handler `#showForm(mapE)`: puts the marker at the clicked position and shows the form. -/
def showForm (s : App) (latlng : LatLng) : App :=
  { s with curMarker := some latlng, formHidden := false }

/-- Handler `#hideForm()`. -/
def hideForm (s : App) : App :=
  { s with formHidden := true }

/-- The arrow function `validInputs`. -/
def validInputs (inputs : List JSNum) : Bool :=
  inputs.all JSNum.isFinite

/-- The arrow function `allPositive`. -/
def allPositive (inputs : List JSNum) : Bool :=
  inputs.all JSNum.gtZero

/-- The markup built by `#renderWorkout`; reading a property of `undefined` or
`null`, and `toFixed` on a value that is not a Number, throw. -/
def workoutHtml (workout : JSVal) : Except JSError Row :=
  if workout.isNullish then .error .typeError
  else
    let row (m : RowMetrics) : Row :=
      { name := workout.get "name", id := workout.get "id",
        description := workout.get "description", distance := workout.get "distance",
        duration := workout.get "duration", metrics := m }
    match workout.get "name" with
    | .str "running" =>
      match workout.get "pace" with
      | .num pace => .ok (row (.running pace (workout.get "cadence")))
      | _ => .error .typeError
    | .str "cycling" =>
      match workout.get "speed" with
      | .num speed => .ok (row (.cycling speed (workout.get "elevationGain")))
      | _ => .error .typeError
    | _ => .ok (row .none)

/-- Method `#renderWorkout(workout)`: `insertAdjacentHTML('afterend', html)` on the
form puts the new row right after the form, before the rows already there. -/
def renderWorkout (s : App) (workout : JSVal) : Except JSError App :=
  match workoutHtml workout with
  | .error err => .error err
  | .ok html => .ok { s with rows := html :: s.rows }

/-- Method `#renderMarker(workout, coords)`. -/
def renderMarker (s : App) (workout : JSVal) (coords : Option LatLng) : Outcome :=
  let s1 : App := match coords with
    | some c => { s with curMarker := some c }
    | none => s
  match s1.curMarker with
  | none => ⟨s1, some .typeError⟩
  | some marker =>
    if workout.isNullish then ⟨s1, some .typeError⟩
    else
      ⟨{ s1 with popups := s1.popups ++
          [{ marker := marker, name := workout.get "name",
             description := workout.get "description" }] }, none⟩

/-- Method `#saveWorkouts()`: `localStorage.setItem` replaces the stored value, or
throws and leaves it when the store has no room for the document. -/
def saveWorkouts (s : App) : Outcome :=
  match JSON.stringify (.arr s.workouts) with
  | none => ⟨{ s with storage := none }, none⟩
  | some doc =>
    if s.quota doc then ⟨{ s with storage := some doc }, none⟩
    else ⟨s, some .quotaExceeded⟩

/-- The tail of `#newWorkout` from `this.#workouts.push(workout)` on. -/
def pushWorkout (s : App) (workout : JSVal) : Outcome :=
  let s1 : App := { s with workouts := s.workouts ++ [workout] }
  match s1.renderWorkout workout with
  | .error err => ⟨s1, some err⟩
  | .ok s2 =>
    match s2.renderMarker workout none with
    | ⟨s3, some err⟩ => ⟨s3, some err⟩
    | ⟨s3, none⟩ => s3.hideForm.saveWorkouts

/-- Handler `#newWorkout(e)`. -/
def newWorkout (s : App) (rnd : JSNum.Rounding) (e : FormInput) : Outcome :=
  match s.curMarker with
  | none => ⟨s, some .typeError⟩
  | some latlng =>
    let coords : JSVal := .arr [.num (.fin latlng.lat), .num (.fin latlng.lng)]
    let reject : Outcome :=
      ⟨{ s with alerts := s.alerts ++ ["Values has to be positive numbers"] }, none⟩
    if e.type = "running" then
      if !validInputs [e.distance, e.duration, e.cadence]
          || !allPositive [e.distance, e.duration, e.cadence] then reject
      else
        match Running.new rnd coords e.distance e.duration e.cadence e.date e.now with
        | .error err => ⟨s, some err⟩
        | .ok workout => s.pushWorkout workout
    else if e.type = "cycling" then
      if !validInputs [e.distance, e.duration, e.elevation]
          || !allPositive [e.distance, e.duration] then reject
      else
        match Cycling.new rnd coords e.distance e.duration e.elevation e.date e.now with
        | .error err => ⟨s, some err⟩
        | .ok workout => s.pushWorkout workout
    else s.pushWorkout .undefined

/-- The call `this.#workouts.find(w => w.id === id)`: the first workout whose `id`
is the string `id`; reading `id` of `undefined` or `null` throws. -/
def findWorkout (id : String) : List JSVal → Except JSError (Option JSVal)
  | [] => .ok none
  | w :: ws =>
    if w.isNullish then .error .typeError
    else
      match w.get "id" with
      | .str s => if s = id then .ok (some w) else findWorkout id ws
      | _ => findWorkout id ws

/-- Handler `#moveToMarker(e)`; `workoutEl` is the `data-id` of the row that holds
the click target, `none` when the click is outside every row. -/
def moveToMarker (s : App) (workoutEl : Option String) : Outcome :=
  match workoutEl with
  | none => ⟨s, none⟩
  | some dataId =>
    match findWorkout dataId s.workouts with
    | .error err => ⟨s, some err⟩
    | .ok workout =>
      match s.map with
      | none => ⟨s, some .typeError⟩
      | some m =>
        match workout with
        | none => ⟨s, some .typeError⟩
        | some w =>
          ⟨{ s with map := some { flights := m.flights ++ [(w.get "coords", 13)] } }, none⟩

/-- The loop `this.#workouts.forEach(workout => this.#renderWorkout(workout))`. -/
def renderAll (s : App) : List JSVal → Except JSError App
  | [] => .ok s
  | w :: ws =>
    match s.renderWorkout w with
    | .error err => .error err
    | .ok s1 => renderAll s1 ws

/-- Method `#getWorkouts()`, called once by the constructor.  An exception here
ends `new App()` before any handler is attached, so no state follows it. -/
def getWorkouts (s : App) : Except JSError App :=
  let data : JSVal := match s.storage with
    | none => .null
    | some doc => JSON.parse doc
  if !data.truthy then .ok s
  else
    match data with
    | .arr ws => renderAll { s with workouts := ws } ws
    | _ => .error .typeError

end App

/-- The events the constructor and `#loadMap` attach handlers to. -/
inductive Event where
  | mapClick (latlng : LatLng)
  | submit (e : FormInput)
  | rowClick (workoutEl : Option String)

/-- Dispatch of one event to its handler; an exception ends the handler only. -/
def App.handle (s : App) (rnd : JSNum.Rounding) : Event → App
  | .mapClick latlng => s.showForm latlng
  | .submit e => (s.newWorkout rnd e).app
  | .rowClick el => (s.moveToMarker el).app

/-- The state after a sequence of events. -/
def App.run (s : App) (rnd : JSNum.Rounding) (events : List Event) : App :=
  events.foldl (fun acc ev => acc.handle rnd ev) s


/-! ## Vocabulary of the statements -/

/-- The inputs that pass the guard of `#newWorkout` for their type. -/
def FormInput.accepted (e : FormInput) : Bool :=
  if e.type = "running" then
    App.validInputs [e.distance, e.duration, e.cadence]
      && App.allPositive [e.distance, e.duration, e.cadence]
  else if e.type = "cycling" then
    App.validInputs [e.distance, e.duration, e.elevation]
      && App.allPositive [e.distance, e.duration]
  else false

/-- The workout `#newWorkout` constructs from an input, with the marker at `latlng`. -/
def FormInput.workout (e : FormInput) (rnd : JSNum.Rounding) (latlng : LatLng) : JSVal :=
  let coords : JSVal := .arr [.num (.fin latlng.lat), .num (.fin latlng.lng)]
  let built :=
    if e.type = "running" then
      Running.new rnd coords e.distance e.duration e.cadence e.date e.now
    else Cycling.new rnd coords e.distance e.duration e.elevation e.date e.now
  match built with
  | .ok w => w
  | .error _ => .undefined

/-- A value that is a positive real number. -/
def JSVal.isPositive : JSVal → Prop
  | .num (.fin q) => 0 < q
  | _ => False

/-- A JSON member that is a positive number. -/
def JSON.isPositive : Option JSON → Prop
  | some (.num q) => 0 < q
  | _ => False

/-- The number written by a string of decimal digits. -/
def decimalValue (s : List Char) : Nat :=
  s.foldl (fun acc c => 10 * acc + (c.toNat - 48)) 0

/-- The events of a session in which each submission follows a click on the map. -/
def session : List (LatLng × FormInput) → List Event
  | [] => []
  | (latlng, e) :: rest => .mapClick latlng :: .submit e :: session rest

/-- The workouts of a session, in the order of submission. -/
def sessionWorkouts (rnd : JSNum.Rounding) (subs : List (LatLng × FormInput)) : List JSVal :=
  subs.map (fun x => x.2.workout rnd x.1)

/-- The derived metric `#newWorkout` computes from an input: the pace of a run, the
speed of a ride. -/
def FormInput.metric (e : FormInput) (rnd : JSNum.Rounding) : JSNum :=
  if e.type = "running" then JSNum.div rnd e.duration e.distance
  else JSNum.div rnd e.distance (JSNum.div rnd e.duration (.fin 60))

/-- The value read back for an array element written as JSON:
`JSON.parse(JSON.stringify(v))`, where `undefined` is written as `null`. -/
def reload (v : JSVal) : JSVal :=
  JSON.parse ((JSON.stringify v).getD .null)

/-! ## Sample inputs -/

/-- A creation date: 4 November, local time. -/
def sampleDate : JSDate :=
  { month := 10, day := 4, iso := "2026-11-04T09:30:00.000Z" }

/-- A position clicked on the map. -/
def samplePlace : LatLng :=
  { lat := 40, lng := -739 / 10 }

/-- A running form: 5 km in 25 min at 170 steps per minute. -/
def sampleRun : FormInput :=
  { type := "running", distance := .fin 5, duration := .fin 25, cadence := .fin 170,
    elevation := .fin 0, date := sampleDate, now := 1793784600000 }

/-- A cycling form: 20 km in 60 min with 150 m of climb, one second later. -/
def sampleRide : FormInput :=
  { type := "cycling", distance := .fin 20, duration := .fin 60, cadence := .fin 0,
    elevation := .fin 150, date := sampleDate, now := 1793784601000 }

/-- A cycling form submitted in the same millisecond as `sampleRun`. -/
def sampleRideSameMs : FormInput :=
  { sampleRide with now := 1793784600000 }

/-- A running form with distance zero. -/
def sampleInvalid : FormInput :=
  { sampleRun with distance := .fin 0 }

/-- A running form whose quotient `duration / distance` is `2 ^ (-1400)`: both fields
are doubles and pass the guard. -/
def sampleTinyPace : FormInput :=
  { sampleRun with distance := .fin (2 ^ (700 : ℤ)), duration := .fin (2 ^ (-700 : ℤ)) }

/-- A running form whose quotient `duration / distance` is `2 ^ 1400`: both fields are
doubles and pass the guard. -/
def sampleHugePace : FormInput :=
  { sampleRun with distance := .fin (2 ^ (-700 : ℤ)), duration := .fin (2 ^ (700 : ℤ)) }

/-- A stored collection of two records, a run and then a ride. -/
def sampleStored : JSON :=
  .arr [.obj [("id", .str "3784600000"), ("coords", .arr [.num 40, .num 7]),
      ("distance", .num 5), ("duration", .num 25), ("name", .str "running"),
      ("cadence", .num 170), ("pace", .num 5), ("description", .str "Running on November 4")],
    .obj [("id", .str "3784601000"), ("coords", .arr [.num 40, .num 7]),
      ("distance", .num 20), ("duration", .num 60), ("name", .str "cycling"),
      ("elevationGain", .num 150), ("speed", .num 20),
      ("description", .str "Cycling on November 4")]]

/-- A stored collection whose single record has a numeric `id`. -/
def sampleStale : JSON :=
  .arr [.obj [("id", .num 5), ("coords", .arr [.num 40, .num 7]), ("distance", .num 3),
    ("duration", .num 30), ("name", .str "running"), ("cadence", .num 160),
    ("pace", .num 10), ("description", .str "Running on May 1")]]

/-! ## Rounding to double precision -/

namespace JSNum

theorem ulp_pos (q : ℚ) : 0 < ulp q := by
  unfold ulp
  positivity

theorem floor_le_roundHalfEven (x : ℚ) : ⌊x⌋ ≤ roundHalfEven x := by
  unfold roundHalfEven
  split_ifs <;> omega

theorem roundHalfEven_pos (x : ℚ) (h : 1 / 2 < x) : 1 ≤ roundHalfEven x := by
  have hf : 0 ≤ ⌊x⌋ := Int.floor_nonneg.2 (by linarith)
  rcases hf.lt_or_eq with h1 | h1
  · have := floor_le_roundHalfEven x
    omega
  · unfold roundHalfEven
    rw [← h1]
    have h2 : ¬ (x - ((0 : ℤ) : ℚ) < 1 / 2) := by push_cast; linarith
    have h3 : 1 / 2 < x - ((0 : ℤ) : ℚ) := by push_cast; linarith
    rw [if_neg h2, if_pos h3]
    norm_num

theorem roundHalfEven_small (x : ℚ) (h0 : 0 ≤ x) (h : x ≤ 1 / 2) : roundHalfEven x = 0 := by
  have hf : ⌊x⌋ = 0 := Int.floor_eq_zero_iff.2 ⟨h0, by linarith⟩
  unfold roundHalfEven
  rw [hf]
  push_cast
  split_ifs <;> first | rfl | (exfalso; linarith)

theorem roundHalfEven_intCast (n : ℤ) : roundHalfEven (n : ℚ) = n := by
  unfold roundHalfEven
  rw [Int.floor_intCast]
  norm_num

theorem nearest_nonneg (q : ℚ) : 0 ≤ nearest q := by
  unfold nearest
  have h1 : 0 ≤ |q| / ulp q := div_nonneg (abs_nonneg q) (le_of_lt (ulp_pos q))
  have h2 : (0 : ℤ) ≤ roundHalfEven (|q| / ulp q) :=
    le_trans (Int.floor_nonneg.2 h1) (floor_le_roundHalfEven _)
  have h3 : (0 : ℚ) ≤ (roundHalfEven (|q| / ulp q) : ℚ) := by exact_mod_cast h2
  exact mul_nonneg h3 (le_of_lt (ulp_pos q))

theorem half_lt_scaled (q : ℚ) (hq : 0 < q) (h : (2 : ℚ) ^ (-1075 : ℤ) < q) :
    1 / 2 < |q| / ulp q := by
  rw [abs_of_pos hq]
  unfold ulp
  rw [abs_of_pos hq]
  rcases le_total (Int.log 2 q) (-1022) with hl | hl
  · rw [max_eq_right hl]
    rw [lt_div_iff₀ (by positivity)]
    have : (1 / 2 : ℚ) * 2 ^ ((-1022 : ℤ) - 52) = 2 ^ (-1075 : ℤ) := by
      rw [show ((-1022 : ℤ) - 52) = -1075 + 1 by norm_num, zpow_add₀ (by norm_num)]
      norm_num
    rw [this]
    exact h
  · rw [max_eq_left hl]
    rw [lt_div_iff₀ (by positivity)]
    have h1 : ((2 : ℕ) : ℚ) ^ Int.log 2 q ≤ q := Int.zpow_log_le_self (by norm_num) hq
    have h2 : (1 / 2 : ℚ) * 2 ^ (Int.log 2 q - 52) < 2 ^ Int.log 2 q := by
      rw [zpow_sub₀ (by norm_num)]
      have hp : (0 : ℚ) < 2 ^ Int.log 2 q := by positivity
      rw [show (1 / 2 : ℚ) * (2 ^ Int.log 2 q / 2 ^ (52 : ℤ))
        = 2 ^ Int.log 2 q * (1 / 2 / 2 ^ (52 : ℤ)) by ring]
      have : (1 / 2 / 2 ^ (52 : ℤ) : ℚ) < 1 := by norm_num
      nlinarith
    push_cast at h1
    linarith

theorem binary64_pos (q : ℚ) (hq : 0 < q) :
    binary64 q = posInf
    ∨ ∃ r, binary64 q = fin r ∧ 0 ≤ r ∧ ((2 : ℚ) ^ (-1075 : ℤ) < q → 0 < r) := by
  unfold binary64
  rw [if_neg (ne_of_gt hq)]
  by_cases ho : (2 : ℚ) ^ (1024 : ℤ) ≤ nearest q
  · left; rw [if_pos ho, if_pos hq]
  · right
    rw [if_neg ho, if_pos hq]
    refine ⟨nearest q, rfl, nearest_nonneg q, fun h => ?_⟩
    unfold nearest
    have h1 : (1 : ℤ) ≤ roundHalfEven (|q| / ulp q) :=
      roundHalfEven_pos _ (half_lt_scaled q hq h)
    have h2 : (0 : ℚ) < (roundHalfEven (|q| / ulp q) : ℚ) := by exact_mod_cast h1
    exact mul_pos h2 (ulp_pos q)

theorem binary64_underflow (q : ℚ) (hq : 0 < q) (h : q ≤ (2 : ℚ) ^ (-1075 : ℤ)) :
    binary64 q = fin 0 := by
  have hlt : q < ((2 : ℕ) : ℚ) ^ (-1022 : ℤ) := by
    push_cast
    calc q ≤ (2 : ℚ) ^ (-1075 : ℤ) := h
      _ < (2 : ℚ) ^ (-1022 : ℤ) := zpow_lt_zpow_right₀ (by norm_num) (by norm_num)
  have hlog : Int.log 2 q < -1022 := (Int.lt_zpow_iff_log_lt (by norm_num) hq).1 hlt
  have hulp : ulp q = 2 ^ (-1074 : ℤ) := by
    unfold ulp
    rw [abs_of_pos hq, max_eq_right (le_of_lt hlog)]
    norm_num
  have hx : |q| / ulp q ≤ 1 / 2 := by
    rw [abs_of_pos hq, hulp, div_le_iff₀ (by positivity)]
    have : (1 / 2 : ℚ) * 2 ^ (-1074 : ℤ) = 2 ^ (-1075 : ℤ) := by
      rw [show (-1074 : ℤ) = -1075 + 1 by norm_num, zpow_add₀ (by norm_num)]
      norm_num
    rw [this]; exact h
  have hn : nearest q = 0 := by
    unfold nearest
    rw [roundHalfEven_small _ (div_nonneg (abs_nonneg q) (le_of_lt (ulp_pos q))) hx]
    norm_num
  unfold binary64
  rw [if_neg (ne_of_gt hq), hn, if_neg (by norm_num), if_pos hq]

theorem binary64_overflow (q : ℚ) (h : (2 : ℚ) ^ (1024 : ℤ) ≤ q) : binary64 q = posInf := by
  have hq : 0 < q := lt_of_lt_of_le (by positivity) h
  have hlog : (1024 : ℤ) ≤ Int.log 2 q := by
    rw [← Int.zpow_le_iff_le_log (by norm_num) hq]
    simpa using h
  have hulp : ulp q = 2 ^ (Int.log 2 q - 52) := by
    unfold ulp
    rw [abs_of_pos hq, max_eq_left (by omega)]
  have h1 : ((2 : ℕ) : ℚ) ^ Int.log 2 q ≤ q := Int.zpow_log_le_self (by norm_num) hq
  have h52 : (((2 : ℤ) ^ (52 : ℕ) : ℤ) : ℚ) = (2 : ℚ) ^ (52 : ℤ) := by norm_num
  have hx : (((2 : ℤ) ^ (52 : ℕ) : ℤ) : ℚ) ≤ |q| / ulp q := by
    rw [h52, abs_of_pos hq, hulp, le_div_iff₀ (by positivity), ← zpow_add₀ (by norm_num)]
    simpa using h1
  have hfl : (2 : ℤ) ^ (52 : ℕ) ≤ roundHalfEven (|q| / ulp q) :=
    le_trans (Int.le_floor.2 hx) (floor_le_roundHalfEven _)
  have h2 : (2 : ℚ) ^ (52 : ℤ) ≤ (roundHalfEven (|q| / ulp q) : ℚ) := by
    rw [← h52]; exact_mod_cast hfl
  have h3 : (2 : ℚ) ^ (1024 : ℤ) ≤ 2 ^ (52 : ℤ) * ulp q := by
    rw [hulp, ← zpow_add₀ (by norm_num)]
    exact zpow_le_zpow_right₀ (by norm_num) (by omega)
  have hn : (2 : ℚ) ^ (1024 : ℤ) ≤ nearest q :=
    le_trans h3 (mul_le_mul_of_nonneg_right h2 (le_of_lt (ulp_pos q)))
  unfold binary64
  rw [if_neg (ne_of_gt hq), if_pos hn, if_pos hq]

theorem binary64_natCast (n : ℕ) (h0 : 0 < n) (h : n < 2 ^ 53) : binary64 (n : ℚ) = fin n := by
  have hq : (0 : ℚ) < n := by exact_mod_cast h0
  have hlog : Int.log 2 (n : ℚ) = Nat.log 2 n := Int.log_natCast 2 n
  have hL : Nat.log 2 n < 53 := Nat.log_lt_of_lt_pow (by omega) h
  have hulp : ulp (n : ℚ) = 2 ^ ((Nat.log 2 n : ℤ) - 52) := by
    unfold ulp
    rw [abs_of_pos hq, hlog, max_eq_left (by omega)]
  have hscaled : |(n : ℚ)| / ulp (n : ℚ) = ((n * 2 ^ (52 - Nat.log 2 n) : ℕ) : ℤ) := by
    rw [abs_of_pos hq, hulp, div_eq_iff (by positivity)]
    push_cast
    rw [mul_assoc, ← zpow_natCast, ← zpow_add₀ (by norm_num)]
    have : ((52 - Nat.log 2 n : ℕ) : ℤ) + ((Nat.log 2 n : ℤ) - 52) = 0 := by omega
    rw [this]; simp
  have hn : nearest (n : ℚ) = n := by
    unfold nearest
    rw [hscaled, roundHalfEven_intCast, hulp]
    push_cast
    rw [mul_assoc, ← zpow_natCast, ← zpow_add₀ (by norm_num)]
    have : ((52 - Nat.log 2 n : ℕ) : ℤ) + ((Nat.log 2 n : ℤ) - 52) = 0 := by omega
    rw [this]; simp
  have hno : ¬ ((2 : ℚ) ^ (1024 : ℤ) ≤ (n : ℚ)) := by
    rw [not_le]
    have h1 : (n : ℚ) < (2 : ℚ) ^ (53 : ℤ) := by
      rw [zpow_ofNat]; exact_mod_cast h
    have h2 : (2 : ℚ) ^ (53 : ℤ) ≤ 2 ^ (1024 : ℤ) :=
      zpow_le_zpow_right₀ (by norm_num) (by norm_num)
    linarith
  unfold binary64
  rw [if_neg (ne_of_gt hq), hn, if_neg hno, if_pos hq]

end JSNum

theorem div_fin (rnd : JSNum.Rounding) (a b : ℚ) (hb : b ≠ 0) :
    JSNum.div rnd (.fin a) (.fin b) = rnd (a / b) := by
  simp [JSNum.div, hb]

/-! ## Evaluation lemmas -/

theorem setDescription_running (date : JSDate) :
    Workout.setDescription "running" date
      = .ok ("Running on " ++ (months[date.month]?).getD "undefined" ++ " "
          ++ toString date.day) := by
  rfl

theorem setDescription_cycling (date : JSDate) :
    Workout.setDescription "cycling" date
      = .ok ("Cycling on " ++ (months[date.month]?).getD "undefined" ++ " "
          ++ toString date.day) := by
  rfl

theorem Running_new_eq (rnd : JSNum.Rounding) (coords : JSVal)
    (distance duration cadence : JSNum) (date : JSDate) (now : Nat) :
    Running.new rnd coords distance duration cadence date now
      = .ok (.obj [("date", .date date), ("id", .str (Workout.id now)), ("coords", coords),
          ("distance", .num distance), ("duration", .num duration),
          ("name", .str "running"), ("cadence", .num cadence),
          ("pace", .num (JSNum.div rnd duration distance)),
          ("description", .str ("Running on " ++ (months[date.month]?).getD "undefined"
              ++ " " ++ toString date.day))]) := by
  rfl

theorem Cycling_new_eq (rnd : JSNum.Rounding) (coords : JSVal)
    (distance duration elevationGain : JSNum) (date : JSDate) (now : Nat) :
    Cycling.new rnd coords distance duration elevationGain date now
      = .ok (.obj [("date", .date date), ("id", .str (Workout.id now)), ("coords", coords),
          ("distance", .num distance), ("duration", .num duration),
          ("name", .str "cycling"), ("elevationGain", .num elevationGain),
          ("speed", .num (JSNum.div rnd distance (JSNum.div rnd duration (.fin 60)))),
          ("description", .str ("Cycling on " ++ (months[date.month]?).getD "undefined"
              ++ " " ++ toString date.day))]) := by
  rfl

theorem accepted_cases (e : FormInput) (h : e.accepted = true) :
    (e.type = "running" ∧ ∃ d t c : ℚ, e.distance = .fin d ∧ e.duration = .fin t
        ∧ e.cadence = .fin c ∧ 0 < d ∧ 0 < t ∧ 0 < c)
    ∨ (e.type = "cycling" ∧ ∃ d t g : ℚ, e.distance = .fin d ∧ e.duration = .fin t
        ∧ e.elevation = .fin g ∧ 0 < d ∧ 0 < t) := by
  unfold FormInput.accepted at h
  by_cases hr : e.type = "running"
  · left
    refine ⟨hr, ?_⟩
    rw [if_pos hr] at h
    cases hd : e.distance <;> cases ht : e.duration <;> cases hc : e.cadence <;>
      simp_all [App.validInputs, App.allPositive, JSNum.isFinite, JSNum.gtZero]
  · right
    rw [if_neg hr] at h
    by_cases hc : e.type = "cycling"
    · refine ⟨hc, ?_⟩
      rw [if_pos hc] at h
      cases hd : e.distance <;> cases ht : e.duration <;> cases hg : e.elevation <;>
        simp_all [App.validInputs, App.allPositive, JSNum.isFinite, JSNum.gtZero]
    · rw [if_neg hc] at h
      exact absurd h (by simp)

theorem accepted_type (e : FormInput) (h : e.accepted = true) :
    e.type = "running" ∨ e.type = "cycling" := by
  rcases accepted_cases e h with h | h
  · exact Or.inl h.1
  · exact Or.inr h.1

theorem cycling_ne_running (e : FormInput) (h : e.type = "cycling") : ¬ (e.type = "running") := by
  rw [h]; decide

theorem workout_running (rnd : JSNum.Rounding) (e : FormInput) (m : LatLng)
    (h : e.type = "running") :
    e.workout rnd m = .obj [("date", .date e.date), ("id", .str (Workout.id e.now)),
          ("coords", .arr [.num (.fin m.lat), .num (.fin m.lng)]),
          ("distance", .num e.distance), ("duration", .num e.duration),
          ("name", .str "running"), ("cadence", .num e.cadence),
          ("pace", .num (e.metric rnd)),
          ("description", .str ("Running on " ++ (months[e.date.month]?).getD "undefined"
              ++ " " ++ toString e.date.day))] := by
  simp only [FormInput.workout, FormInput.metric, h, if_true, Running_new_eq]

theorem workout_cycling (rnd : JSNum.Rounding) (e : FormInput) (m : LatLng)
    (h : e.type = "cycling") :
    e.workout rnd m = .obj [("date", .date e.date), ("id", .str (Workout.id e.now)),
          ("coords", .arr [.num (.fin m.lat), .num (.fin m.lng)]),
          ("distance", .num e.distance), ("duration", .num e.duration),
          ("name", .str "cycling"), ("elevationGain", .num e.elevation),
          ("speed", .num (e.metric rnd)),
          ("description", .str ("Cycling on " ++ (months[e.date.month]?).getD "undefined"
              ++ " " ++ toString e.date.day))] := by
  have hr := cycling_ne_running e h
  simp only [FormInput.workout, FormInput.metric, hr, if_false, Cycling_new_eq]

theorem workoutHtml_workout (rnd : JSNum.Rounding) (e : FormInput) (m : LatLng)
    (h : e.type = "running" ∨ e.type = "cycling") :
    ∃ r, App.workoutHtml (e.workout rnd m) = .ok r := by
  rcases h with h | h
  · rw [workout_running rnd e m h]; exact ⟨_, rfl⟩
  · rw [workout_cycling rnd e m h]; exact ⟨_, rfl⟩

theorem workout_not_nullish (rnd : JSNum.Rounding) (e : FormInput) (m : LatLng)
    (h : e.type = "running" ∨ e.type = "cycling") :
    (e.workout rnd m).isNullish = false := by
  rcases h with h | h
  · rw [workout_running rnd e m h]; rfl
  · rw [workout_cycling rnd e m h]; rfl

theorem workout_id (rnd : JSNum.Rounding) (e : FormInput) (m : LatLng)
    (h : e.type = "running" ∨ e.type = "cycling") :
    (e.workout rnd m).get "id" = .str (Workout.id e.now) := by
  rcases h with h | h
  · rw [workout_running rnd e m h]; rfl
  · rw [workout_cycling rnd e m h]; rfl

/-! ## The handler of a submission -/

theorem saveWorkouts_frame (s : App) :
    s.saveWorkouts.app.workouts = s.workouts ∧ s.saveWorkouts.app.rows = s.rows
    ∧ s.saveWorkouts.app.curMarker = s.curMarker ∧ s.saveWorkouts.app.map = s.map
    ∧ s.saveWorkouts.app.alerts = s.alerts ∧ s.saveWorkouts.app.quota = s.quota := by
  unfold App.saveWorkouts
  repeat' split
  all_goals exact ⟨rfl, rfl, rfl, rfl, rfl, rfl⟩

theorem saveWorkouts_storage (s : App) (h : s.saveWorkouts.error = none) :
    s.saveWorkouts.app.storage = JSON.stringify (.arr s.workouts) := by
  unfold App.saveWorkouts at h ⊢
  cases hd : JSON.stringify (.arr s.workouts) with
  | none => rfl
  | some doc =>
    simp only [hd] at h ⊢
    by_cases hq : s.quota doc = true
    · simp [hq]
    · simp [hq] at h

theorem pushWorkout_ok (s : App) (w : JSVal) (m : LatLng) (r : Row)
    (hm : s.curMarker = some m) (hr : App.workoutHtml w = .ok r) (hn : w.isNullish = false) :
    s.pushWorkout w =
      App.saveWorkouts { s with
        workouts := s.workouts ++ [w], rows := r :: s.rows,
        popups := s.popups ++
          [{ marker := m, name := w.get "name", description := w.get "description" }],
        formHidden := true } := by
  simp [App.pushWorkout, App.renderWorkout, hr, App.renderMarker, hm, hn, App.hideForm]

theorem pushWorkout_frame (s : App) (w : JSVal) (m : LatLng) (r : Row)
    (hm : s.curMarker = some m) (hr : App.workoutHtml w = .ok r) (hn : w.isNullish = false) :
    (s.pushWorkout w).app.workouts = s.workouts ++ [w]
    ∧ (s.pushWorkout w).app.rows = r :: s.rows := by
  rw [pushWorkout_ok s w m r hm hr hn]
  exact ⟨(saveWorkouts_frame _).1, (saveWorkouts_frame _).2.1⟩

theorem newWorkout_accepted (rnd : JSNum.Rounding) (s : App) (e : FormInput) (m : LatLng)
    (hm : s.curMarker = some m) (ha : e.accepted = true) :
    s.newWorkout rnd e = s.pushWorkout (e.workout rnd m) := by
  have ha2 := ha
  unfold FormInput.accepted at ha2
  rcases accepted_type e ha with h | h
  · rw [if_pos h, Bool.and_eq_true] at ha2
    simp only [App.newWorkout, hm, if_pos h, ha2.1, ha2.2, FormInput.workout, Running_new_eq]
    simp
  · have hr := cycling_ne_running e h
    rw [if_neg hr, if_pos h, Bool.and_eq_true] at ha2
    simp only [App.newWorkout, hm, if_neg hr, if_pos h, ha2.1, ha2.2, FormInput.workout,
      Cycling_new_eq]
    simp

theorem newWorkout_rejected (rnd : JSNum.Rounding) (s : App) (e : FormInput) (m : LatLng)
    (hm : s.curMarker = some m) (ht : e.type = "running" ∨ e.type = "cycling")
    (ha : e.accepted = false) :
    s.newWorkout rnd e
      = { app := { s with alerts := s.alerts ++ ["Values has to be positive numbers"] },
          error := none } := by
  unfold FormInput.accepted at ha
  rcases ht with h | h
  · rw [if_pos h] at ha
    simp only [App.newWorkout, hm, if_pos h]
    rw [if_pos]
    cases h1 : App.validInputs [e.distance, e.duration, e.cadence] <;>
      cases h2 : App.allPositive [e.distance, e.duration, e.cadence] <;> simp_all
  · have hr := cycling_ne_running e h
    rw [if_neg hr, if_pos h] at ha
    simp only [App.newWorkout, hm, if_neg hr, if_pos h]
    rw [if_pos]
    cases h1 : App.validInputs [e.distance, e.duration, e.elevation] <;>
      cases h2 : App.allPositive [e.distance, e.duration] <;> simp_all

theorem newWorkout_no_marker (rnd : JSNum.Rounding) (s : App) (e : FormInput)
    (hm : s.curMarker = none) :
    s.newWorkout rnd e = { app := s, error := some .typeError } := by
  simp [App.newWorkout, hm]

theorem accepted_iff (e : FormInput) (ht : e.type = "running" ∨ e.type = "cycling") :
    e.accepted = true ↔
      ∃ d t x : ℚ, e.distance = .fin d ∧ e.duration = .fin t
        ∧ (if e.type = "running" then e.cadence else e.elevation) = .fin x
        ∧ 0 < d ∧ 0 < t ∧ (e.type = "running" → 0 < x) := by
  constructor
  · intro ha
    rcases accepted_cases e ha with ⟨h, d, t, c, hd, hdu, hc, hd0, ht0, hc0⟩ |
      ⟨h, d, t, g, hd, hdu, hg, hd0, ht0⟩
    · exact ⟨d, t, c, hd, hdu, by rw [if_pos h]; exact hc, hd0, ht0, fun _ => hc0⟩
    · have hr := cycling_ne_running e h
      exact ⟨d, t, g, hd, hdu, by rw [if_neg hr]; exact hg, hd0, ht0, fun h1 => absurd h1 hr⟩
  · rintro ⟨d, t, x, hd, hdu, hx, hd0, ht0, hx0⟩
    unfold FormInput.accepted
    rcases ht with h | h
    · rw [if_pos h] at hx
      simp [if_pos h, hd, hdu, hx, App.validInputs, App.allPositive, JSNum.isFinite,
        JSNum.gtZero, hd0, ht0, hx0 h]
    · have hr := cycling_ne_running e h
      rw [if_neg hr] at hx
      simp [if_neg hr, if_pos h, hd, hdu, hx, App.validInputs, App.allPositive,
        JSNum.isFinite, JSNum.gtZero, hd0, ht0]

/-! ## Decimal strings -/

theorem digitChar_value (d : Nat) (h : d < 10) : (Nat.digitChar d).toNat - 48 = d := by
  interval_cases d <;> rfl

theorem decimalValue_append (a b : List Char) :
    decimalValue (a ++ b) = b.foldl (fun acc c => 10 * acc + (c.toNat - 48)) (decimalValue a) := by
  simp [decimalValue, List.foldl_append]

theorem foldl_digits (b : List Char) (hb : ∀ c ∈ b, c.toNat - 48 < 10) (x : Nat) :
    b.foldl (fun acc c => 10 * acc + (c.toNat - 48)) x
      = x * 10 ^ b.length + decimalValue b ∧ decimalValue b < 10 ^ b.length := by
  induction b using List.reverseRecOn generalizing x with
  | nil => simp [decimalValue]
  | append_singleton l c ih =>
    have hl : ∀ c ∈ l, c.toNat - 48 < 10 := fun c hc => hb c (by simp [hc])
    have hc : c.toNat - 48 < 10 := hb c (by simp)
    have h1 := ih hl x
    have h2 := ih hl 0
    simp only [decimalValue, List.foldl_append, List.foldl_cons, List.foldl_nil,
      List.length_append, List.length_singleton] at *
    rw [h1.1]
    constructor
    · ring
    · have := h1.2
      rw [pow_succ]
      omega

theorem toDigitsCore_spec (fuel : Nat) : ∀ (n : Nat) (ds : List Char), n < fuel →
    ∃ l, Nat.toDigitsCore 10 fuel n ds = l ++ ds ∧ (∀ c ∈ l, c.toNat - 48 < 10)
      ∧ decimalValue l = n := by
  induction fuel with
  | zero => intro n ds h; omega
  | succ fuel ih =>
    intro n ds h
    have hd : (Nat.digitChar (n % 10)).toNat - 48 = n % 10 :=
      digitChar_value _ (Nat.mod_lt _ (by norm_num))
    simp only [Nat.toDigitsCore]
    by_cases h0 : n / 10 = 0
    · rw [if_pos h0]
      refine ⟨[Nat.digitChar (n % 10)], rfl, ?_, ?_⟩
      · intro c hc
        simp only [List.mem_singleton] at hc
        rw [hc, hd]; exact Nat.mod_lt _ (by norm_num)
      · simp only [decimalValue, List.foldl_cons, List.foldl_nil, hd]
        omega
    · rw [if_neg h0]
      obtain ⟨l, hl, hdig, hval⟩ := ih (n / 10) (Nat.digitChar (n % 10) :: ds) (by omega)
      refine ⟨l ++ [Nat.digitChar (n % 10)], by simp [hl], ?_, ?_⟩
      · intro c hc
        rcases List.mem_append.1 hc with hc | hc
        · exact hdig c hc
        · simp only [List.mem_singleton] at hc
          rw [hc, hd]; exact Nat.mod_lt _ (by norm_num)
      · rw [decimalValue_append, hval]
        simp only [List.foldl_cons, List.foldl_nil, hd]
        omega

theorem decimalValue_id (now : Nat) : decimalValue (Workout.id now).data = now % 10 ^ 10 := by
  obtain ⟨l, hl, hdig, hval⟩ := toDigitsCore_spec (now + 1) now [] (by omega)
  have hrepr : (toString now).data = l := by
    show (Nat.repr now).data = l
    simp [Nat.repr, Nat.toDigits, hl, List.asString]
  simp only [Workout.id, sliceLast, hrepr]
  have hsplit : l = l.take (l.length - 10) ++ l.drop (l.length - 10) :=
    (List.take_append_drop _ _).symm
  have hdrop : ∀ c ∈ l.drop (l.length - 10), c.toNat - 48 < 10 :=
    fun c hc => hdig c (List.mem_of_mem_drop hc)
  have h1 := foldl_digits (l.drop (l.length - 10)) hdrop (decimalValue (l.take (l.length - 10)))
  have h2 : now = decimalValue (l.take (l.length - 10)) * 10 ^ (l.drop (l.length - 10)).length
      + decimalValue (l.drop (l.length - 10)) := by
    rw [← h1.1, ← decimalValue_append, ← hsplit, hval]
  have hlen : (l.drop (l.length - 10)).length = min l.length 10 := by
    simp only [List.length_drop]; omega
  have hfull := (foldl_digits l hdig 0).2
  rw [hval] at hfull
  by_cases hle : l.length ≤ 10
  · have : l.length - 10 = 0 := by omega
    rw [this, List.drop_zero, hval]
    have hpow : 10 ^ l.length ≤ 10 ^ 10 := Nat.pow_le_pow_right (by norm_num) hle
    exact (Nat.mod_eq_of_lt (by omega)).symm
  · have hlen10 : (l.drop (l.length - 10)).length = 10 := by rw [hlen]; omega
    rw [hlen10] at h1 h2
    conv_rhs => rw [h2]
    rw [Nat.add_comm, Nat.add_mul_mod_self_right]
    exact (Nat.mod_eq_of_lt h1.2).symm

theorem id_determines_residue (a b : Nat) (h : Workout.id a = Workout.id b) :
    a % 10 ^ 10 = b % 10 ^ 10 := by
  rw [← decimalValue_id a, ← decimalValue_id b, h]

/-! ## Sessions -/

theorem step_accepted (rnd : JSNum.Rounding) (s : App) (p : LatLng) (e : FormInput)
    (ha : e.accepted = true) :
    ∃ r, App.workoutHtml (e.workout rnd p) = .ok r
      ∧ ((s.handle rnd (.mapClick p)).handle rnd (.submit e)).workouts
          = s.workouts ++ [e.workout rnd p]
      ∧ ((s.handle rnd (.mapClick p)).handle rnd (.submit e)).rows = r :: s.rows := by
  obtain ⟨r, hr⟩ := workoutHtml_workout rnd e p (accepted_type e ha)
  have hf := pushWorkout_frame (s.showForm p) (e.workout rnd p) p r rfl hr
    (workout_not_nullish rnd e p (accepted_type e ha))
  refine ⟨r, hr, ?_, ?_⟩
  · simp only [App.handle]
    rw [newWorkout_accepted rnd (s.showForm p) e p rfl ha]
    exact hf.1
  · simp only [App.handle]
    rw [newWorkout_accepted rnd (s.showForm p) e p rfl ha]
    exact hf.2

theorem run_cons (rnd : JSNum.Rounding) (s : App) (ev : Event) (rest : List Event) :
    s.run rnd (ev :: rest) = (s.handle rnd ev).run rnd rest := by
  simp [App.run]

theorem run_session (rnd : JSNum.Rounding) (subs : List (LatLng × FormInput)) :
    ∀ s : App, (∀ x ∈ subs, x.2.accepted = true) →
      (s.run rnd (session subs)).workouts = s.workouts ++ sessionWorkouts rnd subs
      ∧ (s.run rnd (session subs)).rows.map Except.ok
          = ((sessionWorkouts rnd subs).map App.workoutHtml).reverse
              ++ s.rows.map Except.ok := by
  induction subs with
  | nil => intro s _; simp [session, sessionWorkouts, App.run]
  | cons x rest ih =>
    intro s hacc
    obtain ⟨p, e⟩ := x
    have ha : e.accepted = true := hacc (p, e) (by simp)
    obtain ⟨r, hr, hw, hrows⟩ := step_accepted rnd s p e ha
    have hrest := ih ((s.handle rnd (.mapClick p)).handle rnd (.submit e))
      (fun y hy => hacc y (by simp [hy]))
    have hrun : s.run rnd (session ((p, e) :: rest))
        = ((s.handle rnd (.mapClick p)).handle rnd (.submit e)).run rnd (session rest) := by
      simp only [session, run_cons]
    rw [hrun, hrest.1, hrest.2, hw, hrows]
    simp [sessionWorkouts, hr]

/-! ## Persistence -/

theorem stringifyElems_eq (ws : List JSVal) :
    JSON.stringifyElems ws = ws.map (fun w => (JSON.stringify w).getD .null) := by
  induction ws with
  | nil => rfl
  | cons w ws ih => simp [JSON.stringifyElems, ih]

theorem parseElems_eq (js : List JSON) : JSON.parseElems js = js.map JSON.parse := by
  induction js with
  | nil => rfl
  | cons j js ih => simp [JSON.parseElems, ih]

theorem parse_stringify_arr (ws : List JSVal) :
    (JSON.stringify (.arr ws)).map JSON.parse = some (.arr (ws.map reload)) := by
  simp [JSON.stringify, JSON.parse, stringifyElems_eq, parseElems_eq, reload]

theorem reload_num (x : JSNum) :
    reload (.num x) = (if x.isFinite then .num x else .null) := by
  cases x <;> rfl

theorem reload_running (date : JSDate) (id : String) (lat lng d t c : ℚ) (x : JSNum)
    (description : String) :
    reload (.obj [("date", .date date), ("id", .str id),
        ("coords", .arr [.num (.fin lat), .num (.fin lng)]),
        ("distance", .num (.fin d)), ("duration", .num (.fin t)),
        ("name", .str "running"), ("cadence", .num (.fin c)), ("pace", .num x),
        ("description", .str description)])
      = .obj [("date", .str date.iso), ("id", .str id),
        ("coords", .arr [.num (.fin lat), .num (.fin lng)]),
        ("distance", .num (.fin d)), ("duration", .num (.fin t)),
        ("name", .str "running"), ("cadence", .num (.fin c)), ("pace", reload (.num x)),
        ("description", .str description)] := by
  cases x <;> rfl

theorem reload_cycling (date : JSDate) (id : String) (lat lng d t g : ℚ) (x : JSNum)
    (description : String) :
    reload (.obj [("date", .date date), ("id", .str id),
        ("coords", .arr [.num (.fin lat), .num (.fin lng)]),
        ("distance", .num (.fin d)), ("duration", .num (.fin t)),
        ("name", .str "cycling"), ("elevationGain", .num (.fin g)), ("speed", .num x),
        ("description", .str description)])
      = .obj [("date", .str date.iso), ("id", .str id),
        ("coords", .arr [.num (.fin lat), .num (.fin lng)]),
        ("distance", .num (.fin d)), ("duration", .num (.fin t)),
        ("name", .str "cycling"), ("elevationGain", .num (.fin g)), ("speed", reload (.num x)),
        ("description", .str description)] := by
  cases x <;> rfl

theorem reload_workout (rnd : JSNum.Rounding) (e : FormInput) (m : LatLng)
    (ha : e.accepted = true) :
    (reload (e.workout rnd m)).get "id" = (e.workout rnd m).get "id"
    ∧ (reload (e.workout rnd m)).get "coords" = (e.workout rnd m).get "coords"
    ∧ (reload (e.workout rnd m)).get "distance" = (e.workout rnd m).get "distance"
    ∧ (reload (e.workout rnd m)).get "duration" = (e.workout rnd m).get "duration"
    ∧ (reload (e.workout rnd m)).get "name" = (e.workout rnd m).get "name" := by
  rcases accepted_cases e ha with ⟨h, d, t, c, hd, ht, hc, _, _, _⟩ |
    ⟨h, d, t, g, hd, ht, hg, _, _⟩
  · rw [workout_running rnd e m h, hd, ht, hc, reload_running]
    exact ⟨rfl, rfl, rfl, rfl, rfl⟩
  · rw [workout_cycling rnd e m h, hd, ht, hg, reload_cycling]
    exact ⟨rfl, rfl, rfl, rfl, rfl⟩

theorem reload_workout_renders (rnd : JSNum.Rounding) (e : FormInput) (m : LatLng)
    (ha : e.accepted = true) (hfin : (e.metric rnd).isFinite = true) :
    ∃ r, App.workoutHtml (reload (e.workout rnd m)) = .ok r := by
  rcases accepted_cases e ha with ⟨h, d, t, c, hd, ht, hc, _, _, _⟩ |
    ⟨h, d, t, g, hd, ht, hg, _, _⟩
  · rw [workout_running rnd e m h, hd, ht, hc, reload_running, reload_num, if_pos hfin]
    exact ⟨_, rfl⟩
  · rw [workout_cycling rnd e m h, hd, ht, hg, reload_cycling, reload_num, if_pos hfin]
    exact ⟨_, rfl⟩

theorem reload_workout_throws (rnd : JSNum.Rounding) (e : FormInput) (m : LatLng)
    (ha : e.accepted = true) (hfin : (e.metric rnd).isFinite = false) :
    App.workoutHtml (reload (e.workout rnd m)) = .error .typeError := by
  have hne : ¬ ((e.metric rnd).isFinite = true) := by rw [hfin]; decide
  rcases accepted_cases e ha with ⟨h, d, t, c, hd, ht, hc, _, _, _⟩ |
    ⟨h, d, t, g, hd, ht, hg, _, _⟩
  · rw [workout_running rnd e m h, hd, ht, hc, reload_running, reload_num, if_neg hne]
    rfl
  · rw [workout_cycling rnd e m h, hd, ht, hg, reload_cycling, reload_num, if_neg hne]
    rfl

theorem renderAll_ok (ws : List JSVal) :
    ∀ s : App, (∀ w ∈ ws, ∃ r, App.workoutHtml w = .ok r) →
      ∃ s1, App.renderAll s ws = .ok s1 := by
  induction ws with
  | nil => intro s _; exact ⟨s, rfl⟩
  | cons w ws ih =>
    intro s h
    obtain ⟨r, hr⟩ := h w (by simp)
    obtain ⟨s1, h1⟩ := ih { s with rows := r :: s.rows } (fun v hv => h v (by simp [hv]))
    exact ⟨s1, by simp [App.renderAll, App.renderWorkout, hr, h1]⟩

theorem renderAll_result (ws : List JSVal) :
    ∀ s s1 : App, App.renderAll s ws = .ok s1 →
      s1.workouts = s.workouts
      ∧ s1.rows.map Except.ok = (ws.map App.workoutHtml).reverse ++ s.rows.map Except.ok := by
  induction ws with
  | nil =>
    intro s s1 h
    simp only [App.renderAll, Except.ok.injEq] at h
    subst h
    simp
  | cons w ws ih =>
    intro s s1 h
    cases hr : App.workoutHtml w with
    | error err => simp [App.renderAll, App.renderWorkout, hr] at h
    | ok r =>
      simp only [App.renderAll, App.renderWorkout, hr] at h
      obtain ⟨h1, h2⟩ := ih _ s1 h
      exact ⟨h1, by rw [h2]; simp [hr]⟩

theorem getWorkouts_result (stored : Option JSON) (s1 : App)
    (h : App.getWorkouts (App.fresh stored) = .ok s1) :
    s1.rows.map Except.ok = (s1.workouts.map App.workoutHtml).reverse
    ∧ ∀ ws, stored.map JSON.parse = some (.arr ws) → s1.workouts = ws := by
  unfold App.getWorkouts at h
  simp only [App.fresh] at h
  split at h
  · simp only [Except.ok.injEq] at h
    subst h
    refine ⟨rfl, ?_⟩
    intro ws hws
    rename_i hfalsy
    cases stored with
    | none => simp at hws
    | some doc =>
      simp only [Option.map, Option.some.injEq] at hws
      simp [hws, JSVal.truthy] at hfalsy
  · split at h
    · rename_i ws0 hdata
      obtain ⟨h1, h2⟩ := renderAll_result ws0 _ s1 h
      simp only [List.map_nil, List.append_nil] at h2
      simp only at h1
      refine ⟨by rw [h2, h1], ?_⟩
      intro ws hws
      cases stored with
      | none => simp at hws
      | some doc =>
        simp only [Option.map, Option.some.injEq] at hws
        simp only [hws, JSVal.arr.injEq] at hdata
        rw [h1, hdata]
    · exact absurd h (by simp)

theorem getWorkouts_returns (ws : List JSVal) (stored : Option JSON)
    (hs : stored.map JSON.parse = some (.arr ws))
    (h : ∀ w ∈ ws, ∃ r, App.workoutHtml w = .ok r) :
    ∃ s1, App.getWorkouts (App.fresh stored) = .ok s1 := by
  cases stored with
  | none => simp at hs
  | some doc =>
    simp only [Option.map, Option.some.injEq] at hs
    obtain ⟨s1, h1⟩ := renderAll_ok ws { App.fresh (some doc) with workouts := ws } h
    refine ⟨s1, ?_⟩
    simp only [App.getWorkouts, App.fresh, hs, JSVal.truthy]
    simpa [App.fresh] using h1

theorem renderAll_throws (w : JSVal) (ws : List JSVal) (s : App)
    (h : App.workoutHtml w = .error .typeError) :
    App.renderAll s (w :: ws) = .error .typeError := by
  simp [App.renderAll, App.renderWorkout, h]

/-! ## Invariants of the event loop -/

theorem moveToMarker_workouts (s : App) (el : Option String) :
    (s.moveToMarker el).app.workouts = s.workouts
    ∧ (s.moveToMarker el).app.storage = s.storage := by
  unfold App.moveToMarker
  repeat' split
  all_goals exact ⟨rfl, rfl⟩

theorem handle_workouts (rnd : JSNum.Rounding) (s : App) (ev : Event)
    (ht : ∀ e : FormInput, ev = .submit e → e.type = "running" ∨ e.type = "cycling") :
    (s.handle rnd ev).workouts = s.workouts
    ∨ ∃ (e : FormInput) (m : LatLng),
        e.accepted = true ∧ (s.handle rnd ev).workouts = s.workouts ++ [e.workout rnd m] := by
  cases ev with
  | mapClick p => exact Or.inl rfl
  | rowClick el => exact Or.inl (moveToMarker_workouts s el).1
  | submit e =>
    have hty := ht e rfl
    cases hm : s.curMarker with
    | none => left; simp [App.handle, newWorkout_no_marker rnd s e hm]
    | some m =>
      cases ha : e.accepted with
      | false => left; simp [App.handle, newWorkout_rejected rnd s e m hm hty ha]
      | true =>
        right
        obtain ⟨r, hr⟩ := workoutHtml_workout rnd e m hty
        refine ⟨e, m, ha, ?_⟩
        simp only [App.handle]
        rw [newWorkout_accepted rnd s e m hm ha]
        exact (pushWorkout_frame s _ m r hm hr (workout_not_nullish rnd e m hty)).1

theorem run_workouts (rnd : JSNum.Rounding) (events : List Event) :
    ∀ s : App,
      (∀ e : FormInput, Event.submit e ∈ events → e.type = "running" ∨ e.type = "cycling") →
      ∃ added, (s.run rnd events).workouts = s.workouts ++ added
        ∧ ∀ w ∈ added, ∃ (e : FormInput) (m : LatLng),
            e.accepted = true ∧ w = e.workout rnd m := by
  induction events with
  | nil => intro s _; exact ⟨[], by simp [App.run], by simp⟩
  | cons ev rest ih =>
    intro s ht
    obtain ⟨added, h1, h2⟩ := ih (s.handle rnd ev) (fun e he => ht e (by simp [he]))
    rcases handle_workouts rnd s ev (fun e he => ht e (by simp [he])) with h | ⟨e, m, ha, h⟩
    · exact ⟨added, by rw [run_cons, h1, h], h2⟩
    · refine ⟨e.workout rnd m :: added, by rw [run_cons, h1, h]; simp, ?_⟩
      intro w hw
      rcases List.mem_cons.1 hw with hw | hw
      · exact ⟨e, m, ha, hw⟩
      · exact h2 w hw

theorem workout_positive (rnd : JSNum.Rounding) (e : FormInput) (m : LatLng)
    (ha : e.accepted = true) :
    ((e.workout rnd m).get "distance").isPositive
    ∧ ((e.workout rnd m).get "duration").isPositive
    ∧ ((e.workout rnd m).get "name" = .str "running" →
        ((e.workout rnd m).get "cadence").isPositive
        ∧ ∃ d t : ℚ, 0 < d ∧ 0 < t
          ∧ (e.workout rnd m).get "distance" = .num (.fin d)
          ∧ (e.workout rnd m).get "duration" = .num (.fin t)
          ∧ (e.workout rnd m).get "pace" = .num (rnd (t / d))) := by
  rcases accepted_cases e ha with ⟨h, d, t, c, hd, ht, hc, hd0, ht0, hc0⟩ |
    ⟨h, d, t, g, hd, ht, hg, hd0, ht0⟩
  · have hmet : e.metric rnd = rnd (t / d) := by
      simp only [FormInput.metric, if_pos h, hd, ht]
      exact div_fin rnd t d (ne_of_gt hd0)
    rw [workout_running rnd e m h, hd, ht, hc, hmet]
    exact ⟨hd0, ht0, fun _ => ⟨hc0, d, t, hd0, ht0, rfl, rfl, rfl⟩⟩
  · rw [workout_cycling rnd e m h, hd, ht, hg]
    refine ⟨hd0, ht0, fun hn => ?_⟩
    have : JSVal.str "cycling" = JSVal.str "running" := hn
    rw [JSVal.str.injEq] at this
    exact absurd this (by decide)

theorem lookup_stringifyProps (k : String) (q : ℚ) (ps : List (String × JSVal))
    (h : JSVal.lookup k ps = .num (.fin q)) :
    JSON.lookup k (JSON.stringifyProps ps) = some (.num q) := by
  induction ps with
  | nil => simp [JSVal.lookup] at h
  | cons p ps ih =>
    obtain ⟨k1, v⟩ := p
    by_cases hk : k1 = k
    · simp only [JSVal.lookup, if_pos hk] at h
      rw [h]
      simp [JSON.stringifyProps, JSON.stringify, JSON.lookup, hk]
    · simp only [JSVal.lookup, if_neg hk] at h
      simp only [JSON.stringifyProps]
      cases hv : JSON.stringify v with
      | none => simpa using ih h
      | some j => simpa [JSON.lookup, hk] using ih h

theorem stringify_positive (w : JSVal) (k : String) (h : (w.get k).isPositive) :
    ∃ j, JSON.stringify w = some j ∧ JSON.isPositive (j.member k) := by
  cases w with
  | obj ps =>
    cases hv : JSVal.lookup k ps with
    | num n =>
      cases n with
      | fin q =>
        have hq : 0 < q := by simpa [JSVal.get, hv, JSVal.isPositive] using h
        refine ⟨_, rfl, ?_⟩
        simp only [JSON.member, lookup_stringifyProps k q ps hv]
        exact hq
      | nan => simp [JSVal.get, hv, JSVal.isPositive] at h
      | posInf => simp [JSVal.get, hv, JSVal.isPositive] at h
      | negInf => simp [JSVal.get, hv, JSVal.isPositive] at h
    | undefined => simp [JSVal.get, hv, JSVal.isPositive] at h
    | null => simp [JSVal.get, hv, JSVal.isPositive] at h
    | bool b => simp [JSVal.get, hv, JSVal.isPositive] at h
    | str x => simp [JSVal.get, hv, JSVal.isPositive] at h
    | date x => simp [JSVal.get, hv, JSVal.isPositive] at h
    | arr x => simp [JSVal.get, hv, JSVal.isPositive] at h
    | obj x => simp [JSVal.get, hv, JSVal.isPositive] at h
  | undefined => simp [JSVal.get, JSVal.isPositive] at h
  | null => simp [JSVal.get, JSVal.isPositive] at h
  | bool b => simp [JSVal.get, JSVal.isPositive] at h
  | num b => simp [JSVal.get, JSVal.isPositive] at h
  | str x => simp [JSVal.get, JSVal.isPositive] at h
  | date x => simp [JSVal.get, JSVal.isPositive] at h
  | arr x => simp [JSVal.get, JSVal.isPositive] at h

/-! ## The sample inputs -/

theorem sample_accepted :
    ∀ x ∈ [(samplePlace, sampleRun), (samplePlace, sampleRide)], x.2.accepted = true := by
  intro x hx
  simp only [List.mem_cons, List.mem_singleton, List.not_mem_nil, or_false] at hx
  rcases hx with rfl | rfl
  · rfl
  · rfl

theorem metric_sampleRun : sampleRun.metric JSNum.binary64 = .fin 5 := by
  have h : sampleRun.metric JSNum.binary64 = JSNum.binary64 (25 / 5) :=
    div_fin JSNum.binary64 25 5 (by norm_num)
  rw [h, show (25 / 5 : ℚ) = ((5 : ℕ) : ℚ) by norm_num,
    JSNum.binary64_natCast 5 (by norm_num) (by norm_num)]
  norm_num

theorem metric_sampleRide : sampleRide.metric JSNum.binary64 = .fin 20 := by
  have h : sampleRide.metric JSNum.binary64
      = JSNum.div JSNum.binary64 (.fin 20) (JSNum.div JSNum.binary64 (.fin 60) (.fin 60)) := rfl
  rw [h, div_fin JSNum.binary64 60 60 (by norm_num),
    show (60 / 60 : ℚ) = ((1 : ℕ) : ℚ) by norm_num,
    JSNum.binary64_natCast 1 (by norm_num) (by norm_num),
    div_fin JSNum.binary64 20 _ (by norm_num),
    show (20 / ((1 : ℕ) : ℚ) : ℚ) = ((20 : ℕ) : ℚ) by norm_num,
    JSNum.binary64_natCast 20 (by norm_num) (by norm_num)]
  norm_num

theorem sampleTinyPace_accepted : sampleTinyPace.accepted = true :=
  (accepted_iff sampleTinyPace (Or.inl rfl)).2
    ⟨2 ^ (700 : ℤ), 2 ^ (-700 : ℤ), 170, rfl, rfl, rfl, by positivity, by positivity,
      fun _ => by norm_num⟩

theorem sampleHugePace_accepted : sampleHugePace.accepted = true :=
  (accepted_iff sampleHugePace (Or.inl rfl)).2
    ⟨2 ^ (-700 : ℤ), 2 ^ (700 : ℤ), 170, rfl, rfl, rfl, by positivity, by positivity,
      fun _ => by norm_num⟩

theorem metric_running (rnd : JSNum.Rounding) (e : FormInput) (d t : ℚ)
    (h : e.type = "running") (hd : e.distance = .fin d) (ht : e.duration = .fin t)
    (hd0 : d ≠ 0) : e.metric rnd = rnd (t / d) := by
  simp only [FormInput.metric, if_pos h, hd, ht]
  exact div_fin rnd t d hd0

theorem metric_sampleTinyPace : sampleTinyPace.metric JSNum.binary64 = .fin 0 := by
  have hq : (2 ^ (-700 : ℤ) / 2 ^ (700 : ℤ) : ℚ) = 2 ^ (-1400 : ℤ) := by
    rw [← zpow_sub₀ (by norm_num)]; norm_num
  rw [metric_running JSNum.binary64 sampleTinyPace (2 ^ (700 : ℤ)) (2 ^ (-700 : ℤ)) rfl rfl rfl
    (by positivity), hq]
  exact JSNum.binary64_underflow _ (by positivity)
    (zpow_le_zpow_right₀ (by norm_num) (by norm_num))

theorem metric_sampleHugePace : sampleHugePace.metric JSNum.binary64 = .posInf := by
  have hq : (2 ^ (700 : ℤ) / 2 ^ (-700 : ℤ) : ℚ) = 2 ^ (1400 : ℤ) := by
    rw [← zpow_sub₀ (by norm_num)]; norm_num
  rw [metric_running JSNum.binary64 sampleHugePace (2 ^ (-700 : ℤ)) (2 ^ (700 : ℤ)) rfl rfl rfl
    (by positivity), hq]
  exact JSNum.binary64_overflow _ (zpow_le_zpow_right₀ (by norm_num) (by norm_num))

theorem saveWorkouts_accepts (s : App) (h : ∀ doc, s.quota doc = true) :
    s.saveWorkouts.error = none := by
  unfold App.saveWorkouts
  split
  · rfl
  · rw [if_pos (h _)]

/-! ## Validation at submission -/

/-- Counterexample to C1: on a page where no marker has been placed, the handler reads
the position of `#curMarker` before it looks at the fields, so the valid sample run
appends nothing and the handler ends with a TypeError. -/
theorem newWorkout_without_marker_throws :
    (App.fresh none).curMarker = none
    ∧ sampleRun.type = "running"
    ∧ (∃ d t x : ℚ, sampleRun.distance = .fin d ∧ sampleRun.duration = .fin t
        ∧ (if sampleRun.type = "running" then sampleRun.cadence else sampleRun.elevation)
            = .fin x
        ∧ 0 < d ∧ 0 < t ∧ (sampleRun.type = "running" → 0 < x))
    ∧ ((App.fresh none).newWorkout JSNum.binary64 sampleRun).error = some .typeError
    ∧ ((App.fresh none).newWorkout JSNum.binary64 sampleRun).app.workouts = []
    ∧ ¬ ∃ w, ((App.fresh none).newWorkout JSNum.binary64 sampleRun).app.workouts
        = (App.fresh none).workouts ++ [w] := by
  refine ⟨rfl, rfl, ⟨5, 25, 170, rfl, rfl, rfl, by norm_num, by norm_num,
    fun _ => by norm_num⟩, rfl, rfl, ?_⟩
  rintro ⟨w, hw⟩
  have hlen := congrArg List.length hw
  have h0 : ((App.fresh none).newWorkout JSNum.binary64 sampleRun).app.workouts = [] := rfl
  rw [h0] at hlen
  simp [App.fresh] at hlen

/-- C1, amended: a submission of type running or cycling, made while a marker stands
on the map (as after `#showForm`), appends exactly one workout if and only if distance,
duration and the extra field (cadence for running, elevation for cycling) are finite,
distance and duration are positive and, for running only, the cadence is positive.  In
every other case the submission is rejected with a notice: the list, the rows and the
stored value stay as they were. -/
theorem newWorkout_appends_iff_valid (rnd : JSNum.Rounding) (s : App) (e : FormInput)
    (m : LatLng) (hm : s.curMarker = some m)
    (ht : e.type = "running" ∨ e.type = "cycling") :
    ((∃ w, (s.newWorkout rnd e).app.workouts = s.workouts ++ [w]) ↔
      ∃ d t x : ℚ, e.distance = .fin d ∧ e.duration = .fin t
        ∧ (if e.type = "running" then e.cadence else e.elevation) = .fin x
        ∧ 0 < d ∧ 0 < t ∧ (e.type = "running" → 0 < x))
    ∧ ((¬ ∃ d t x : ℚ, e.distance = .fin d ∧ e.duration = .fin t
        ∧ (if e.type = "running" then e.cadence else e.elevation) = .fin x
        ∧ 0 < d ∧ 0 < t ∧ (e.type = "running" → 0 < x)) →
      (s.newWorkout rnd e).app.workouts = s.workouts
      ∧ (s.newWorkout rnd e).app.storage = s.storage
      ∧ (s.newWorkout rnd e).app.rows = s.rows
      ∧ (s.newWorkout rnd e).app.alerts = s.alerts ++ ["Values has to be positive numbers"]
      ∧ (s.newWorkout rnd e).error = none) := by
  rw [← accepted_iff e ht]
  cases ha : e.accepted with
  | false =>
    rw [newWorkout_rejected rnd s e m hm ht ha]
    refine ⟨⟨?_, fun h => absurd h (by simp)⟩, fun _ => ⟨rfl, rfl, rfl, rfl, rfl⟩⟩
    rintro ⟨w, hw⟩
    have hlen := congrArg List.length hw
    simp at hlen
  | true =>
    obtain ⟨r, hr⟩ := workoutHtml_workout rnd e m ht
    rw [newWorkout_accepted rnd s e m hm ha]
    have hf := pushWorkout_frame s _ m r hm hr (workout_not_nullish rnd e m ht)
    exact ⟨⟨fun _ => rfl, fun _ => ⟨_, hf.1⟩⟩, fun h => absurd rfl h⟩

/-- Witness of C1, amended: the sample running form, submitted after a click on the
map of a fresh application, appends one workout. -/
theorem newWorkout_appends_iff_valid_witness :
    ((App.fresh none).showForm samplePlace).curMarker = some samplePlace
    ∧ (sampleRun.type = "running" ∨ sampleRun.type = "cycling")
    ∧ ∃ w, (((App.fresh none).showForm samplePlace).newWorkout JSNum.binary64
          sampleRun).app.workouts
        = ((App.fresh none).showForm samplePlace).workouts ++ [w] :=
  ⟨rfl, Or.inl rfl,
    (newWorkout_appends_iff_valid JSNum.binary64 ((App.fresh none).showForm samplePlace)
      sampleRun samplePlace rfl (Or.inl rfl)).1.2
      ⟨5, 25, 170, rfl, rfl, rfl, by norm_num, by norm_num, fun _ => by norm_num⟩⟩

/-! ## Derived metrics -/

/-- C2: for positive distance, duration and cadence, `new Running` yields
`pace = duration / distance` in exact arithmetic and keeps coords, distance, duration
and cadence as given; for distance 5, duration 25 and cadence 170 the pace is 5.  Under
any rounding the pace is the rounded quotient, and in double precision the pace of the
scenario is 5 as well. -/
theorem Running_pace (coords : JSVal) (distance duration cadence : ℚ) (date : JSDate)
    (now : Nat) (hd : 0 < distance) (_ht : 0 < duration) (_hc : 0 < cadence) :
    (∃ w, Running.new JSNum.exact coords (.fin distance) (.fin duration) (.fin cadence)
        date now = .ok w
      ∧ w.get "pace" = .num (.fin (duration / distance))
      ∧ w.get "coords" = coords
      ∧ w.get "distance" = .num (.fin distance)
      ∧ w.get "duration" = .num (.fin duration)
      ∧ w.get "cadence" = .num (.fin cadence))
    ∧ (∃ w, Running.new JSNum.exact coords (.fin 5) (.fin 25) (.fin 170) date now = .ok w
      ∧ w.get "pace" = .num (.fin 5))
    ∧ (∀ rnd : JSNum.Rounding,
        ∃ w, Running.new rnd coords (.fin distance) (.fin duration) (.fin cadence)
            date now = .ok w
          ∧ w.get "pace" = .num (rnd (duration / distance))
          ∧ w.get "coords" = coords
          ∧ w.get "distance" = .num (.fin distance)
          ∧ w.get "duration" = .num (.fin duration)
          ∧ w.get "cadence" = .num (.fin cadence))
    ∧ (∃ w, Running.new JSNum.binary64 coords (.fin 5) (.fin 25) (.fin 170) date now
        = .ok w
      ∧ w.get "pace" = .num (.fin 5)) := by
  have hgen : ∀ rnd : JSNum.Rounding,
      ∃ w, Running.new rnd coords (.fin distance) (.fin duration) (.fin cadence)
          date now = .ok w
        ∧ w.get "pace" = .num (rnd (duration / distance))
        ∧ w.get "coords" = coords
        ∧ w.get "distance" = .num (.fin distance)
        ∧ w.get "duration" = .num (.fin duration)
        ∧ w.get "cadence" = .num (.fin cadence) := by
    intro rnd
    refine ⟨_, Running_new_eq _ _ _ _ _ _ _, ?_, rfl, rfl, rfl, rfl⟩
    show JSVal.num (JSNum.div rnd (.fin duration) (.fin distance)) = _
    rw [div_fin rnd duration distance (ne_of_gt hd)]
  refine ⟨hgen JSNum.exact, ?_, hgen, ?_⟩
  · refine ⟨_, Running_new_eq _ _ _ _ _ _ _, ?_⟩
    have h : JSNum.div JSNum.exact (.fin 25) (.fin 5) = .fin 5 := by
      rw [div_fin JSNum.exact 25 5 (by norm_num)]
      show JSNum.fin (25 / 5) = _
      norm_num
    show JSVal.num (JSNum.div JSNum.exact (.fin 25) (.fin 5)) = _
    rw [h]
  · refine ⟨_, Running_new_eq _ _ _ _ _ _ _, ?_⟩
    have h : JSNum.div JSNum.binary64 (.fin 25) (.fin 5) = .fin 5 := by
      rw [div_fin JSNum.binary64 25 5 (by norm_num),
        show (25 / 5 : ℚ) = ((5 : ℕ) : ℚ) by norm_num,
        JSNum.binary64_natCast 5 (by norm_num) (by norm_num)]
      norm_num
    show JSVal.num (JSNum.div JSNum.binary64 (.fin 25) (.fin 5)) = _
    rw [h]

/-- Witness of C2: the run of the scenario, at coordinates (40.0, -73.9). -/
theorem Running_pace_witness :
    (0 : ℚ) < 5 ∧ (0 : ℚ) < 25 ∧ (0 : ℚ) < 170
    ∧ ∃ w, Running.new JSNum.exact (.arr [.num (.fin 40), .num (.fin (-739 / 10))]) (.fin 5)
        (.fin 25) (.fin 170) sampleDate 1793784600000 = .ok w
      ∧ w.get "pace" = .num (.fin 5) :=
  ⟨by norm_num, by norm_num, by norm_num,
    (Running_pace (.arr [.num (.fin 40), .num (.fin (-739 / 10))]) 5 25 170 sampleDate
      1793784600000 (by norm_num) (by norm_num) (by norm_num)).2.1⟩

/-- C3: for positive distance and duration and any finite elevation gain, `new Cycling`
yields `speed = distance / (duration / 60) = 60 * distance / duration` in exact
arithmetic and keeps coords, distance, duration and elevationGain as given; for
distance 20, duration 60 and elevation gain 150 the speed is 20.  Under any rounding
the speed is the twice rounded quotient, and in double precision the speed of the
scenario is 20 as well. -/
theorem Cycling_speed (coords : JSVal) (distance duration elevationGain : ℚ)
    (date : JSDate) (now : Nat) (_hd : 0 < distance) (ht : 0 < duration) :
    (∃ w, Cycling.new JSNum.exact coords (.fin distance) (.fin duration)
        (.fin elevationGain) date now = .ok w
      ∧ w.get "speed" = .num (.fin (distance / (duration / 60)))
      ∧ distance / (duration / 60) = 60 * distance / duration
      ∧ w.get "coords" = coords
      ∧ w.get "distance" = .num (.fin distance)
      ∧ w.get "duration" = .num (.fin duration)
      ∧ w.get "elevationGain" = .num (.fin elevationGain))
    ∧ (∃ w, Cycling.new JSNum.exact coords (.fin 20) (.fin 60) (.fin 150) date now = .ok w
      ∧ w.get "speed" = .num (.fin 20))
    ∧ (∀ rnd : JSNum.Rounding,
        ∃ w, Cycling.new rnd coords (.fin distance) (.fin duration) (.fin elevationGain)
            date now = .ok w
          ∧ w.get "speed" = .num (JSNum.div rnd (.fin distance) (rnd (duration / 60)))
          ∧ w.get "coords" = coords
          ∧ w.get "distance" = .num (.fin distance)
          ∧ w.get "duration" = .num (.fin duration)
          ∧ w.get "elevationGain" = .num (.fin elevationGain))
    ∧ (∃ w, Cycling.new JSNum.binary64 coords (.fin 20) (.fin 60) (.fin 150) date now
        = .ok w
      ∧ w.get "speed" = .num (.fin 20)) := by
  have hgen : ∀ rnd : JSNum.Rounding,
      ∃ w, Cycling.new rnd coords (.fin distance) (.fin duration) (.fin elevationGain)
          date now = .ok w
        ∧ w.get "speed" = .num (JSNum.div rnd (.fin distance) (rnd (duration / 60)))
        ∧ w.get "coords" = coords
        ∧ w.get "distance" = .num (.fin distance)
        ∧ w.get "duration" = .num (.fin duration)
        ∧ w.get "elevationGain" = .num (.fin elevationGain) := by
    intro rnd
    refine ⟨_, Cycling_new_eq _ _ _ _ _ _ _, ?_, rfl, rfl, rfl, rfl⟩
    show JSVal.num (JSNum.div rnd (.fin distance) (JSNum.div rnd (.fin duration) (.fin 60)))
      = _
    rw [div_fin rnd duration 60 (by norm_num)]
  refine ⟨?_, ?_, hgen, ?_⟩
  · refine ⟨_, Cycling_new_eq _ _ _ _ _ _ _, ?_, ?_, rfl, rfl, rfl, rfl⟩
    · have h : JSNum.div JSNum.exact (.fin distance)
          (JSNum.div JSNum.exact (.fin duration) (.fin 60))
          = .fin (distance / (duration / 60)) := by
        rw [div_fin JSNum.exact duration 60 (by norm_num)]
        show JSNum.div JSNum.exact (.fin distance) (.fin (duration / 60)) = _
        rw [div_fin JSNum.exact distance (duration / 60)
          (div_ne_zero (ne_of_gt ht) (by norm_num))]
        rfl
      show JSVal.num (JSNum.div JSNum.exact (.fin distance)
        (JSNum.div JSNum.exact (.fin duration) (.fin 60))) = _
      rw [h]
    · field_simp
      ring
  · refine ⟨_, Cycling_new_eq _ _ _ _ _ _ _, ?_⟩
    have h : JSNum.div JSNum.exact (.fin 20) (JSNum.div JSNum.exact (.fin 60) (.fin 60))
        = .fin 20 := by
      rw [div_fin JSNum.exact 60 60 (by norm_num)]
      show JSNum.div JSNum.exact (.fin 20) (.fin (60 / 60)) = _
      rw [div_fin JSNum.exact 20 (60 / 60) (by norm_num)]
      show JSNum.fin (20 / (60 / 60)) = _
      norm_num
    show JSVal.num (JSNum.div JSNum.exact (.fin 20)
      (JSNum.div JSNum.exact (.fin 60) (.fin 60))) = _
    rw [h]
  · refine ⟨_, Cycling_new_eq _ _ _ _ _ _ _, ?_⟩
    have h : JSNum.div JSNum.binary64 (.fin 20)
        (JSNum.div JSNum.binary64 (.fin 60) (.fin 60)) = .fin 20 := by
      rw [div_fin JSNum.binary64 60 60 (by norm_num),
        show (60 / 60 : ℚ) = ((1 : ℕ) : ℚ) by norm_num,
        JSNum.binary64_natCast 1 (by norm_num) (by norm_num),
        div_fin JSNum.binary64 20 _ (by norm_num),
        show (20 / ((1 : ℕ) : ℚ) : ℚ) = ((20 : ℕ) : ℚ) by norm_num,
        JSNum.binary64_natCast 20 (by norm_num) (by norm_num)]
      norm_num
    show JSVal.num (JSNum.div JSNum.binary64 (.fin 20)
      (JSNum.div JSNum.binary64 (.fin 60) (.fin 60))) = _
    rw [h]

/-- Witness of C3: the ride of the scenario. -/
theorem Cycling_speed_witness :
    (0 : ℚ) < 20 ∧ (0 : ℚ) < 60
    ∧ ∃ w, Cycling.new JSNum.exact (.arr [.num (.fin 40), .num (.fin (-739 / 10))]) (.fin 20)
        (.fin 60) (.fin 150) sampleDate 1793784601000 = .ok w
      ∧ w.get "speed" = .num (.fin 20) :=
  ⟨by norm_num, by norm_num,
    (Cycling_speed (.arr [.num (.fin 40), .num (.fin (-739 / 10))]) 20 60 150 sampleDate
      1793784601000 (by norm_num) (by norm_num)).2.1⟩

/-! ## Description -/

/-- C4: for a creation date with month number below 12, the month lookup stays inside
the 12-entry table, `setDescription` gives "Running on <Month> <day>" for a running
workout and "Cycling on <Month> <day>" for a cycling one, and the constructors store
that text as `description`. -/
theorem setDescription_format (date : JSDate) (hm : date.month < 12) :
    months.length = 12
    ∧ ∃ month, months[date.month]? = some month
      ∧ Workout.setDescription "running" date
          = .ok ("Running on " ++ month ++ " " ++ toString date.day)
      ∧ Workout.setDescription "cycling" date
          = .ok ("Cycling on " ++ month ++ " " ++ toString date.day)
      ∧ (∀ rnd coords distance duration cadence now,
          ∃ w, Running.new rnd coords distance duration cadence date now = .ok w
            ∧ w.get "description"
                = .str ("Running on " ++ month ++ " " ++ toString date.day))
      ∧ (∀ rnd coords distance duration elevationGain now,
          ∃ w, Cycling.new rnd coords distance duration elevationGain date now = .ok w
            ∧ w.get "description"
                = .str ("Cycling on " ++ month ++ " " ++ toString date.day)) := by
  refine ⟨rfl, ?_⟩
  have hlt : date.month < months.length := hm
  refine ⟨months[date.month], List.getElem?_eq_getElem hlt, ?_, ?_, ?_, ?_⟩
  · rw [setDescription_running, List.getElem?_eq_getElem hlt]; rfl
  · rw [setDescription_cycling, List.getElem?_eq_getElem hlt]; rfl
  · intro rnd coords distance duration cadence now
    refine ⟨_, Running_new_eq _ _ _ _ _ _ _, ?_⟩
    rw [List.getElem?_eq_getElem hlt]; rfl
  · intro rnd coords distance duration elevationGain now
    refine ⟨_, Cycling_new_eq _ _ _ _ _ _ _, ?_⟩
    rw [List.getElem?_eq_getElem hlt]; rfl

/-- Witness of C4: a workout created on 4 November. -/
theorem setDescription_format_witness :
    sampleDate.month < 12
    ∧ Workout.setDescription "running" sampleDate = .ok "Running on November 4"
    ∧ Workout.setDescription "cycling" sampleDate = .ok "Cycling on November 4" := by
  obtain ⟨_, month, h1, h2, h3, _⟩ := setDescription_format sampleDate (by decide)
  have hmonth : month = "November" := by
    have h : months[sampleDate.month]? = some "November" := rfl
    rw [h] at h1
    exact (Option.some.inj h1).symm
  subst hmonth
  exact ⟨by decide, h2, h3⟩

/-! ## Order of the list -/

/-- C5: an accepted submission leaves the old list with the new workout appended as
its last element (the length grows by one, every earlier entry keeps its index), and
after a session of accepted submissions that starts from an empty list the i-th
element of the list is the workout of the i-th submission. -/
theorem newWorkout_keeps_order (rnd : JSNum.Rounding) (s : App) (m : LatLng) (e : FormInput)
    (s0 : App) (subs : List (LatLng × FormInput))
    (hm : s.curMarker = some m) (ha : e.accepted = true)
    (h0 : s0.workouts = []) (hacc : ∀ x ∈ subs, x.2.accepted = true) :
    ((s.newWorkout rnd e).app.workouts = s.workouts ++ [e.workout rnd m]
      ∧ (s.newWorkout rnd e).app.workouts.length = s.workouts.length + 1
      ∧ ∀ i, i < s.workouts.length →
          (s.newWorkout rnd e).app.workouts[i]? = s.workouts[i]?)
    ∧ ((s0.run rnd (session subs)).workouts = subs.map (fun x => x.2.workout rnd x.1)
      ∧ ∀ (i : Nat) (x : LatLng × FormInput), subs[i]? = some x →
          (s0.run rnd (session subs)).workouts[i]? = some (x.2.workout rnd x.1)) := by
  have hty := accepted_type e ha
  obtain ⟨r, hr⟩ := workoutHtml_workout rnd e m hty
  have hstep : (s.newWorkout rnd e).app.workouts = s.workouts ++ [e.workout rnd m] := by
    rw [newWorkout_accepted rnd s e m hm ha]
    exact (pushWorkout_frame s _ m r hm hr (workout_not_nullish rnd e m hty)).1
  have hrun : (s0.run rnd (session subs)).workouts
      = subs.map (fun x => x.2.workout rnd x.1) := by
    rw [(run_session rnd subs s0 hacc).1, h0]
    rfl
  refine ⟨⟨hstep, ?_, ?_⟩, hrun, ?_⟩
  · rw [hstep]; simp
  · intro i hi
    rw [hstep, List.getElem?_append_left hi]
  · intro i x hx
    rw [hrun, List.getElem?_map, hx]
    rfl

/-- Witness of C5: the sample run followed by the sample ride. -/
theorem newWorkout_keeps_order_witness :
    ((App.fresh none).showForm samplePlace).curMarker = some samplePlace
    ∧ sampleRide.accepted = true
    ∧ (App.fresh none).workouts = []
    ∧ (∀ x ∈ [(samplePlace, sampleRun), (samplePlace, sampleRide)], x.2.accepted = true)
    ∧ ((App.fresh none).run JSNum.binary64
        (session [(samplePlace, sampleRun), (samplePlace, sampleRide)])).workouts
        = [sampleRun.workout JSNum.binary64 samplePlace,
            sampleRide.workout JSNum.binary64 samplePlace] :=
  ⟨rfl, rfl, rfl, sample_accepted,
    (newWorkout_keeps_order JSNum.binary64 ((App.fresh none).showForm samplePlace)
      samplePlace sampleRide (App.fresh none)
      [(samplePlace, sampleRun), (samplePlace, sampleRide)]
      rfl rfl rfl sample_accepted).2.1⟩

/-! ## Identifiers -/

/-- Counterexample to C6: a run and a ride submitted in the same millisecond are two
entries of the list with the same id. -/
theorem id_shared_in_same_millisecond :
    sampleRun.accepted = true ∧ sampleRideSameMs.accepted = true
    ∧ ∃ a b,
        ((App.fresh none).run JSNum.binary64
          (session [(samplePlace, sampleRun), (samplePlace, sampleRideSameMs)])).workouts
          = [a, b]
        ∧ a.get "name" = .str "running" ∧ b.get "name" = .str "cycling"
        ∧ a.get "id" = .str "3784600000" ∧ b.get "id" = .str "3784600000"
        ∧ a.get "id" = b.get "id" :=
  ⟨rfl, rfl, _, _, rfl, rfl, rfl, rfl, rfl, rfl⟩

/-- C6, amended: the id of a workout is the last 10 characters of the decimal
millisecond timestamp of its creation, and after a session of accepted submissions
two entries of the list whose timestamps are not congruent modulo 10^10 have
different ids. -/
theorem ids_differ_unless_congruent (rnd : JSNum.Rounding) (s0 : App)
    (subs : List (LatLng × FormInput)) (i j : Nat) (x y : LatLng × FormInput)
    (h0 : s0.workouts = []) (hacc : ∀ x ∈ subs, x.2.accepted = true)
    (hi : subs[i]? = some x) (hj : subs[j]? = some y)
    (hne : x.2.now % 10 ^ 10 ≠ y.2.now % 10 ^ 10) :
    ∃ a b, (s0.run rnd (session subs)).workouts[i]? = some a
      ∧ (s0.run rnd (session subs)).workouts[j]? = some b
      ∧ a.get "id" = .str (String.mk (sliceLast 10 (toString x.2.now).data))
      ∧ b.get "id" = .str (String.mk (sliceLast 10 (toString y.2.now).data))
      ∧ a.get "id" ≠ b.get "id" := by
  have hrun : (s0.run rnd (session subs)).workouts
      = subs.map (fun x => x.2.workout rnd x.1) := by
    rw [(run_session rnd subs s0 hacc).1, h0]
    rfl
  have hx : x ∈ subs := List.getElem?_mem hi
  have hy : y ∈ subs := List.getElem?_mem hj
  have ha := workout_id rnd x.2 x.1 (accepted_type x.2 (hacc x hx))
  have hb := workout_id rnd y.2 y.1 (accepted_type y.2 (hacc y hy))
  refine ⟨x.2.workout rnd x.1, y.2.workout rnd y.1, ?_, ?_, ha, hb, ?_⟩
  · rw [hrun, List.getElem?_map, hi]; rfl
  · rw [hrun, List.getElem?_map, hj]; rfl
  · rw [ha, hb]
    intro h
    rw [JSVal.str.injEq] at h
    exact hne (id_determines_residue _ _ h)

/-- Witness of C6, amended: the sample run and the sample ride, one second apart. -/
theorem ids_differ_unless_congruent_witness :
    (App.fresh none).workouts = []
    ∧ (∀ x ∈ [(samplePlace, sampleRun), (samplePlace, sampleRide)], x.2.accepted = true)
    ∧ sampleRun.now % 10 ^ 10 ≠ sampleRide.now % 10 ^ 10
    ∧ ∃ a b,
        ((App.fresh none).run JSNum.binary64
          (session [(samplePlace, sampleRun), (samplePlace, sampleRide)])).workouts[0]?
          = some a
        ∧ ((App.fresh none).run JSNum.binary64
          (session [(samplePlace, sampleRun), (samplePlace, sampleRide)])).workouts[1]?
          = some b
        ∧ a.get "id" ≠ b.get "id" :=
  have hne : sampleRun.now % 10 ^ 10 ≠ sampleRide.now % 10 ^ 10 := by decide
  ⟨rfl, sample_accepted, hne,
    let ⟨a, b, h1, h2, _, _, h5⟩ :=
      ids_differ_unless_congruent JSNum.binary64 (App.fresh none)
        [(samplePlace, sampleRun), (samplePlace, sampleRide)] 0 1
        (samplePlace, sampleRun) (samplePlace, sampleRide) rfl sample_accepted rfl rfl hne
    ⟨a, b, h1, h2, h5⟩⟩

/-! ## Order of the rows -/

/-- Counterexample to C7: after the sample run and then the sample ride, the first row
is the ride and the second row is the run, so the rows are not in the order of
submission. -/
theorem rows_newest_first :
    sampleRun.accepted = true ∧ sampleRide.accepted = true
    ∧ (((App.fresh none).run JSNum.binary64
          (session [(samplePlace, sampleRun), (samplePlace, sampleRide)])).workouts.map
          (fun w => w.get "id")) = [.str "3784600000", .str "3784601000"]
    ∧ (((App.fresh none).run JSNum.binary64
          (session [(samplePlace, sampleRun), (samplePlace, sampleRide)])).rows.map Row.id)
        = [.str "3784601000", .str "3784600000"]
    ∧ (((App.fresh none).run JSNum.binary64
          (session [(samplePlace, sampleRun), (samplePlace, sampleRide)])).rows.map Row.id)
        ≠ (((App.fresh none).run JSNum.binary64
          (session [(samplePlace, sampleRun), (samplePlace, sampleRide)])).workouts.map
          (fun w => w.get "id")) := by
  refine ⟨rfl, rfl, rfl, rfl, ?_⟩
  have h1 : (((App.fresh none).run JSNum.binary64
      (session [(samplePlace, sampleRun), (samplePlace, sampleRide)])).rows.map Row.id)
      = [.str "3784601000", .str "3784600000"] := rfl
  have h2 : (((App.fresh none).run JSNum.binary64
      (session [(samplePlace, sampleRun), (samplePlace, sampleRide)])).workouts.map
      (fun w => w.get "id")) = [.str "3784600000", .str "3784601000"] := rfl
  rw [h1, h2]
  intro h
  have h3 := (List.cons.inj h).1
  rw [JSVal.str.injEq] at h3
  exact absurd h3 (by decide)

/-- C7, amended: the rows that follow the form are in reverse order of submission,
newest first: after a session of accepted submissions that starts without rows and
workouts the rows read from first to last are the rows of the in-memory list read
from last to first, and likewise whenever `#getWorkouts` returns on a stored list at
startup: the in-memory list is then the stored list and the rows are its rows read
from last to first. -/
theorem rows_reverse_submission_order (rnd : JSNum.Rounding) (s0 : App)
    (subs : List (LatLng × FormInput)) (stored : Option JSON) (s1 : App)
    (h0 : s0.workouts = []) (hrows : s0.rows = [])
    (hacc : ∀ x ∈ subs, x.2.accepted = true)
    (hload : App.getWorkouts (App.fresh stored) = .ok s1) :
    ((s0.run rnd (session subs)).workouts = subs.map (fun x => x.2.workout rnd x.1)
      ∧ (s0.run rnd (session subs)).rows.map Except.ok
          = ((s0.run rnd (session subs)).workouts.map App.workoutHtml).reverse)
    ∧ s1.rows.map Except.ok = (s1.workouts.map App.workoutHtml).reverse
    ∧ ∀ ws, stored.map JSON.parse = some (.arr ws) → s1.workouts = ws := by
  have hrun := run_session rnd subs s0 hacc
  rw [h0, hrows] at hrun
  simp only [List.nil_append, List.map_nil, List.append_nil] at hrun
  refine ⟨⟨hrun.1, ?_⟩, getWorkouts_result stored s1 hload⟩
  rw [hrun.2, hrun.1]

/-- Witness of C7, amended: the sample run followed by the sample ride, and a stored
list of two records replayed at startup: the ride comes first, the run second. -/
theorem rows_reverse_submission_order_witness :
    (App.fresh none).workouts = [] ∧ (App.fresh none).rows = []
    ∧ (∀ x ∈ [(samplePlace, sampleRun), (samplePlace, sampleRide)], x.2.accepted = true)
    ∧ ∃ s1, App.getWorkouts (App.fresh (some sampleStored)) = .ok s1
      ∧ s1.workouts.map (fun w => w.get "id") = [.str "3784600000", .str "3784601000"]
      ∧ s1.rows.map Row.id = [.str "3784601000", .str "3784600000"]
      ∧ s1.rows.map Except.ok = (s1.workouts.map App.workoutHtml).reverse :=
  ⟨rfl, rfl, sample_accepted, _, rfl, rfl, rfl,
    (rows_reverse_submission_order JSNum.binary64 (App.fresh none)
      [(samplePlace, sampleRun), (samplePlace, sampleRide)] (some sampleStored) _
      rfl rfl sample_accepted rfl).2.1⟩

/-! ## Recentring on a row -/

theorem moveToMarker_unknown_id (s : App) (m : LMap) (dataId : String)
    (hm : s.map = some m) (hf : App.findWorkout dataId s.workouts = .ok none) :
    s.moveToMarker (some dataId) = { app := s, error := some .typeError } := by
  simp [App.moveToMarker, hf, hm]

theorem moveToMarker_known_id (s : App) (m : LMap) (dataId : String) (w : JSVal)
    (hm : s.map = some m) (hf : App.findWorkout dataId s.workouts = .ok (some w)) :
    s.moveToMarker (some dataId)
      = { app := { s with map := some { flights := m.flights ++ [(w.get "coords", 13)] } },
          error := none } := by
  simp [App.moveToMarker, hf, hm]

/-- C8, at the failing input: a stored record with the numeric id 5 is loaded and
rendered as a row; with the map loaded, a click on that row (data-id "5") finds no
workout, since the number 5 is not the string "5", and `#moveToMarker` ends with a
TypeError instead of returning; the list, the stored value and the map stay as they
were. -/
theorem moveToMarker_stale_id_throws :
    ∃ s1, App.getWorkouts (App.fresh (some sampleStale)) = .ok s1
      ∧ s1.rows.map Row.id = [.num (.fin 5)]
      ∧ App.findWorkout "5" s1.workouts = .ok none
      ∧ (App.moveToMarker { s1 with map := some { flights := [] } } (some "5")).error
          = some .typeError
      ∧ (App.moveToMarker { s1 with map := some { flights := [] } } (some "5")).app
          = { s1 with map := some { flights := [] } } :=
  ⟨_, rfl, rfl, rfl, rfl, rfl⟩

/-! ## Persistence round trip -/

theorem saved_then_loaded (s : App) (hsave : s.saveWorkouts.error = none) :
    (s.saveWorkouts.app.storage).map JSON.parse = some (.arr (s.workouts.map reload)) := by
  rw [saveWorkouts_storage s hsave]
  exact parse_stringify_arr s.workouts

theorem getWorkouts_saved_throws (s : App) (w : JSVal) (ws : List JSVal)
    (hw : s.workouts = w :: ws) (hsave : s.saveWorkouts.error = none)
    (h : App.workoutHtml (reload w) = .error .typeError) :
    App.getWorkouts (App.fresh s.saveWorkouts.app.storage) = .error .typeError := by
  have hp := saved_then_loaded s hsave
  rw [hw] at hp
  cases hst : s.saveWorkouts.app.storage with
  | none => rw [hst] at hp; exact absurd hp (by simp)
  | some doc =>
    rw [hst] at hp
    simp only [Option.map, Option.some.injEq, List.map_cons] at hp
    simp only [App.getWorkouts, App.fresh, hp, JSVal.truthy]
    exact renderAll_throws _ _ _ h

/-- Counterexample to C9: the sample form with distance `2 ^ (-700)` and duration
`2 ^ 700` passes the guard; the pace of its workout overflows to `Infinity`, which is
stored as `null`, and on the stored value `#getWorkouts` throws a TypeError while it
renders the record instead of returning. -/
theorem reload_throws_on_overflowed_pace :
    sampleHugePace.accepted = true
    ∧ (sampleHugePace.workout JSNum.binary64 samplePlace).get "pace" = .num .posInf
    ∧ (App.saveWorkouts { App.fresh none with
          workouts := [sampleHugePace.workout JSNum.binary64 samplePlace] }).error = none
    ∧ App.getWorkouts (App.fresh (App.saveWorkouts { App.fresh none with
          workouts := [sampleHugePace.workout JSNum.binary64 samplePlace] }).app.storage)
        = .error .typeError := by
  have hsave : (App.saveWorkouts { App.fresh none with
      workouts := [sampleHugePace.workout JSNum.binary64 samplePlace] }).error = none :=
    saveWorkouts_accepts _ (fun _ => rfl)
  have hfin : (sampleHugePace.metric JSNum.binary64).isFinite = false := by
    rw [metric_sampleHugePace]; rfl
  refine ⟨sampleHugePace_accepted, ?_, hsave, ?_⟩
  · rw [workout_running JSNum.binary64 sampleHugePace samplePlace rfl, metric_sampleHugePace]
    rfl
  · exact getWorkouts_saved_throws _ _ [] rfl hsave
      (reload_workout_throws JSNum.binary64 sampleHugePace samplePlace
        sampleHugePace_accepted hfin)

/-- C9, amended: for a list of workouts built by the constructors from accepted inputs
(the empty list included), if `#saveWorkouts` stores it and `#getWorkouts` on a fresh
page returns, the loaded list has the same length and its i-th entry has the id,
coords, distance, duration and name of the i-th entry saved; `#getWorkouts` returns
whenever every pace and speed of the list is finite; with nothing stored,
`#getWorkouts` leaves the list empty. -/
theorem save_load_round_trip (rnd : JSNum.Rounding) (s : App)
    (subs : List (LatLng × FormInput))
    (hW : s.workouts = subs.map (fun x => x.2.workout rnd x.1))
    (hacc : ∀ x ∈ subs, x.2.accepted = true)
    (hsave : s.saveWorkouts.error = none) :
    (∀ s1, App.getWorkouts (App.fresh s.saveWorkouts.app.storage) = .ok s1 →
      s1.workouts.length = s.workouts.length
      ∧ ∀ (i : Nat) (w : JSVal), s.workouts[i]? = some w →
          ∃ w1, s1.workouts[i]? = some w1
            ∧ w1.get "id" = w.get "id"
            ∧ w1.get "coords" = w.get "coords"
            ∧ w1.get "distance" = w.get "distance"
            ∧ w1.get "duration" = w.get "duration"
            ∧ w1.get "name" = w.get "name")
    ∧ ((∀ x ∈ subs, (x.2.metric rnd).isFinite = true) →
        ∃ s1, App.getWorkouts (App.fresh s.saveWorkouts.app.storage) = .ok s1)
    ∧ (∃ s2, App.getWorkouts (App.fresh none) = .ok s2 ∧ s2.workouts = []) := by
  have hp := saved_then_loaded s hsave
  have hall : ∀ w ∈ s.workouts, ∃ (x : LatLng × FormInput),
      x ∈ subs ∧ w = x.2.workout rnd x.1 := by
    intro w hw
    rw [hW] at hw
    obtain ⟨x, hx, rfl⟩ := List.mem_map.1 hw
    exact ⟨x, hx, rfl⟩
  refine ⟨?_, ?_, App.fresh none, rfl, rfl⟩
  · intro s1 hload
    have h2 := (getWorkouts_result _ s1 hload).2 _ hp
    refine ⟨by rw [h2]; simp, ?_⟩
    intro i w hi
    obtain ⟨x, hx, rfl⟩ := hall w (List.getElem?_mem hi)
    have hr := reload_workout rnd x.2 x.1 (hacc x hx)
    refine ⟨reload (x.2.workout rnd x.1), ?_, hr.1, hr.2.1, hr.2.2.1, hr.2.2.2.1, hr.2.2.2.2⟩
    rw [h2, List.getElem?_map, hi]
    rfl
  · intro hfin
    refine getWorkouts_returns (s.workouts.map reload) _ hp ?_
    intro w hw
    obtain ⟨v, hv, rfl⟩ := List.mem_map.1 hw
    obtain ⟨x, hx, rfl⟩ := hall v hv
    exact reload_workout_renders rnd x.2 x.1 (hacc x hx) (hfin x hx)

/-- Witness of C9, amended: the sample run and ride are saved and loaded again. -/
theorem save_load_round_trip_witness :
    (∀ x ∈ [(samplePlace, sampleRun), (samplePlace, sampleRide)], x.2.accepted = true)
    ∧ (App.saveWorkouts { App.fresh none with
          workouts := [sampleRun.workout JSNum.binary64 samplePlace,
            sampleRide.workout JSNum.binary64 samplePlace] }).error = none
    ∧ ∃ s1, App.getWorkouts (App.fresh (App.saveWorkouts { App.fresh none with
          workouts := [sampleRun.workout JSNum.binary64 samplePlace,
            sampleRide.workout JSNum.binary64 samplePlace] }).app.storage) = .ok s1
      ∧ s1.workouts.length = 2 :=
  have hsave : (App.saveWorkouts { App.fresh none with
      workouts := [sampleRun.workout JSNum.binary64 samplePlace,
        sampleRide.workout JSNum.binary64 samplePlace] }).error = none :=
    saveWorkouts_accepts _ (fun _ => rfl)
  have hfin : ∀ x ∈ [(samplePlace, sampleRun), (samplePlace, sampleRide)],
      (x.2.metric JSNum.binary64).isFinite = true := by
    intro x hx
    simp only [List.mem_cons, List.mem_singleton, List.not_mem_nil, or_false] at hx
    rcases hx with rfl | rfl
    · rw [metric_sampleRun]; rfl
    · rw [metric_sampleRide]; rfl
  have h := save_load_round_trip JSNum.binary64
    { App.fresh none with
      workouts := [sampleRun.workout JSNum.binary64 samplePlace,
        sampleRide.workout JSNum.binary64 samplePlace] }
    [(samplePlace, sampleRun), (samplePlace, sampleRide)] rfl sample_accepted hsave
  ⟨sample_accepted, hsave,
    let ⟨s1, h1⟩ := h.2.1 hfin
    ⟨s1, h1, (h.1 s1 h1).1⟩⟩

/-! ## Positivity -/

/-- Counterexample to C10: the sample form with distance `2 ^ 700` and duration
`2 ^ (-700)` passes the guard; the pace of its workout is the double nearest to
`2 ^ (-1400)`, which is zero, so the appended running workout has no positive pace. -/
theorem pace_underflows_to_zero :
    sampleTinyPace.accepted = true
    ∧ ∃ w, ((App.fresh none).run JSNum.binary64
          [.mapClick samplePlace, .submit sampleTinyPace]).workouts = [w]
      ∧ w.get "name" = .str "running"
      ∧ w.get "pace" = .num (.fin 0)
      ∧ ¬ (w.get "pace").isPositive := by
  have hacc : ∀ x ∈ [(samplePlace, sampleTinyPace)], x.2.accepted = true := by
    intro x hx
    simp only [List.mem_singleton] at hx
    rw [hx]
    exact sampleTinyPace_accepted
  have hrun := (run_session JSNum.binary64 [(samplePlace, sampleTinyPace)]
    (App.fresh none) hacc).1
  have hpace : (sampleTinyPace.workout JSNum.binary64 samplePlace).get "pace"
      = .num (.fin 0) := by
    rw [workout_running JSNum.binary64 sampleTinyPace samplePlace rfl, metric_sampleTinyPace]
    rfl
  refine ⟨sampleTinyPace_accepted, sampleTinyPace.workout JSNum.binary64 samplePlace,
    hrun, ?_, hpace, ?_⟩
  · rw [workout_running JSNum.binary64 sampleTinyPace samplePlace rfl]
    rfl
  · rw [hpace]
    simp [JSVal.isPositive]

/-- C10, amended: if every workout of the initial list has a positive distance and a
positive duration, then after any sequence of map clicks, row clicks and submissions
of type running or cycling, accepted or rejected, every workout of the list has a
positive distance and duration, so has every record of the collection
`#saveWorkouts` hands to the store (and stores, when the store accepts it), and every
running workout appended has a positive cadence and a pace that is the double nearest
to duration / distance: `Infinity` or a finite number that is not negative, and that
is positive whenever duration / distance exceeds `2 ^ (-1075)`. -/
theorem positivity_invariant (s0 : App) (events : List Event)
    (h0 : ∀ w ∈ s0.workouts, (w.get "distance").isPositive ∧ (w.get "duration").isPositive)
    (ht : ∀ e : FormInput, Event.submit e ∈ events →
      e.type = "running" ∨ e.type = "cycling") :
    (∀ w ∈ (s0.run JSNum.binary64 events).workouts,
      (w.get "distance").isPositive ∧ (w.get "duration").isPositive)
    ∧ (∃ docs, JSON.stringify (.arr (s0.run JSNum.binary64 events).workouts)
          = some (.arr docs)
      ∧ docs.length = (s0.run JSNum.binary64 events).workouts.length
      ∧ (∀ doc ∈ docs, JSON.isPositive (doc.member "distance")
          ∧ JSON.isPositive (doc.member "duration"))
      ∧ ((s0.run JSNum.binary64 events).saveWorkouts.error = none →
          (s0.run JSNum.binary64 events).saveWorkouts.app.storage = some (.arr docs)))
    ∧ (∃ added, (s0.run JSNum.binary64 events).workouts = s0.workouts ++ added
      ∧ ∀ w ∈ added, w.get "name" = .str "running" →
          (w.get "cadence").isPositive
          ∧ ∃ d t : ℚ, 0 < d ∧ 0 < t
            ∧ w.get "distance" = .num (.fin d) ∧ w.get "duration" = .num (.fin t)
            ∧ w.get "pace" = .num (JSNum.binary64 (t / d))
            ∧ (JSNum.binary64 (t / d) = .posInf
              ∨ ∃ r, JSNum.binary64 (t / d) = .fin r ∧ 0 ≤ r
                ∧ ((2 : ℚ) ^ (-1075 : ℤ) < t / d → 0 < r))) := by
  obtain ⟨added, hadd, hacc⟩ := run_workouts JSNum.binary64 events s0 ht
  have hall : ∀ w ∈ (s0.run JSNum.binary64 events).workouts,
      (w.get "distance").isPositive ∧ (w.get "duration").isPositive := by
    intro w hw
    rw [hadd] at hw
    rcases List.mem_append.1 hw with hw | hw
    · exact h0 w hw
    · obtain ⟨e, m, ha, rfl⟩ := hacc w hw
      exact ⟨(workout_positive _ e m ha).1, (workout_positive _ e m ha).2.1⟩
  refine ⟨hall, ?_, added, hadd, ?_⟩
  · refine ⟨JSON.stringifyElems (s0.run JSNum.binary64 events).workouts, rfl, ?_, ?_,
      fun hsave => saveWorkouts_storage _ hsave⟩
    · rw [stringifyElems_eq]; simp
    · intro doc hdoc
      rw [stringifyElems_eq] at hdoc
      obtain ⟨w, hw, rfl⟩ := List.mem_map.1 hdoc
      obtain ⟨j1, hj1, hp1⟩ := stringify_positive w "distance" (hall w hw).1
      obtain ⟨j2, hj2, hp2⟩ := stringify_positive w "duration" (hall w hw).2
      rw [hj1] at hj2
      cases hj2
      rw [hj1]
      exact ⟨hp1, hp2⟩
  · intro w hw hname
    obtain ⟨e, m, ha, rfl⟩ := hacc w hw
    obtain ⟨hc, d, t, hd0, ht0, hd, hdu, hp⟩ := (workout_positive _ e m ha).2.2 hname
    exact ⟨hc, d, t, hd0, ht0, hd, hdu, hp, JSNum.binary64_pos (t / d) (div_pos ht0 hd0)⟩

/-- Witness of C10, amended: from an empty list, a click on the map, a rejected form,
the sample run and a click on its row. -/
theorem positivity_invariant_witness :
    (∀ w ∈ (App.fresh none).workouts,
      (w.get "distance").isPositive ∧ (w.get "duration").isPositive)
    ∧ (∀ e : FormInput,
        Event.submit e ∈ [Event.mapClick samplePlace, .submit sampleInvalid,
          .submit sampleRun, .rowClick (some "3784600000")] →
        e.type = "running" ∨ e.type = "cycling")
    ∧ ((App.fresh none).run JSNum.binary64 [Event.mapClick samplePlace,
        .submit sampleInvalid, .submit sampleRun,
        .rowClick (some "3784600000")]).workouts.length = 1
    ∧ ∀ w ∈ ((App.fresh none).run JSNum.binary64 [Event.mapClick samplePlace,
        .submit sampleInvalid, .submit sampleRun,
        .rowClick (some "3784600000")]).workouts,
        (w.get "distance").isPositive ∧ (w.get "duration").isPositive :=
  have h0 : ∀ w ∈ (App.fresh none).workouts,
      (w.get "distance").isPositive ∧ (w.get "duration").isPositive := by
    intro w hw
    simp [App.fresh] at hw
  have ht : ∀ e : FormInput,
      Event.submit e ∈ [Event.mapClick samplePlace, .submit sampleInvalid,
        .submit sampleRun, .rowClick (some "3784600000")] →
      e.type = "running" ∨ e.type = "cycling" := by
    intro e he
    simp only [List.mem_cons, List.mem_singleton, List.not_mem_nil, or_false,
      Event.submit.injEq, reduceCtorEq, false_or] at he
    rcases he with rfl | rfl
    · exact Or.inl rfl
    · exact Or.inl rfl
  ⟨h0, ht, rfl, (positivity_invariant (App.fresh none) _ h0 ht).1⟩

end Mapty
